import Mathlib

/-!
Verification of the nifty_options_agent live-trading core against its
natural-language specification.

The Python source under baseline_v1_live/ is shallowly embedded in Lean:
prices and times are rationals (ℚ), Python dicts become records or
association lists, broker I/O becomes an explicit oracle record, and each
stateful method becomes a pure function from the old state (plus oracle and
inputs) to the result, the new state and the list of broker-visible events.
Modules that the repository's tests import but whose source is not present
(config.py, the OrderChurnDetector) are modelled from the specification and
are marked as such in their doc comments.
-/

namespace NiftyAgent

/-! ## Data pipeline: BarData (data_pipeline.py lines 59-103)

`update_tick` uses the Python idiom `self.high or ltp`: the stored value is
replaced by `ltp` when it is falsy, i.e. when it is `None` *or* equal to
`0.0`.  `pyOrQ` reproduces that truthiness test exactly. -/

/-- Python truthiness fallback `x or y` for an optional rational `x`:
`None` and `0.0` are falsy. -/
def pyOrQ (x : Option ℚ) (y : ℚ) : ℚ :=
  match x with
  | none => y
  | some v => if v = 0 then y else v

/-- State of `BarData` (timestamp omitted: `update_tick` never touches it).
`open` is a Lean keyword, hence the field is called `openPrice`. -/
structure BarState where
  openPrice : Option ℚ
  high : Option ℚ
  low : Option ℚ
  close : Option ℚ
  volume : ℤ
  tick_count : ℕ
deriving DecidableEq

/-- `BarData.__init__`: all prices `None`, volume 0, tick_count 0. -/
def BarState.init : BarState :=
  { openPrice := none, high := none, low := none, close := none
    volume := 0, tick_count := 0 }

/-- `BarData.update_tick(ltp, volume)` (data_pipeline.py lines 73-82). -/
def BarState.update_tick (b : BarState) (ltp : ℚ) (volume : ℤ) : BarState :=
  { openPrice := match b.openPrice with | none => some ltp | some v => some v
    high := some (max (pyOrQ b.high ltp) ltp)
    low := some (min (pyOrQ b.low ltp) ltp)
    close := some ltp
    volume := b.volume + volume
    tick_count := b.tick_count + 1 }

/-- Fold a sequence of `(ltp, volume)` ticks into a fresh bar. -/
def buildBar (ticks : List (ℚ × ℤ)) : BarState :=
  ticks.foldl (fun b t => b.update_tick t.1 t.2) BarState.init

/-- Maximum of the ltps of a non-empty tick list (first component). -/
def ltpMax (t : ℚ × ℤ) (ts : List (ℚ × ℤ)) : ℚ :=
  ts.foldl (fun a x => max a x.1) t.1

/-- Minimum of the ltps of a non-empty tick list (first component). -/
def ltpMin (t : ℚ × ℤ) (ts : List (ℚ × ℤ)) : ℚ :=
  ts.foldl (fun a x => min a x.1) t.1

/-- Sum of the volumes of a tick list (second component). -/
def volSum (ts : List (ℚ × ℤ)) : ℤ :=
  ts.foldl (fun a x => a + x.2) 0

/-! ## Strike filter (strike_filter.py) -/

/-- Python `int()` on a rational: truncation toward zero. -/
def pyInt (q : ℚ) : ℤ :=
  if 0 ≤ q then ⌊q⌋ else -⌊-q⌋

/-- `StrikeFilter._calculate_position_size` (strike_filter.py lines 164-201),
parameterised over the config constants `R_VALUE`, `LOT_SIZE` and
`MAX_LOTS_PER_POSITION` (config.py is not in the sources).
Returns `(lots, quantity, actual_R)`. -/
def calculatePositionSize (rValue : ℚ) (lotSize : ℤ) (maxLots : ℤ)
    (entry_price sl_price : ℚ) : ℤ × ℤ × ℚ :=
  let risk_per_unit := sl_price - entry_price
  if risk_per_unit ≤ 0 then
    (1, lotSize, risk_per_unit * (lotSize : ℚ))
  else
    let required_qty := rValue / risk_per_unit
    let required_lots := required_qty / (lotSize : ℚ)
    let final_lots := max 1 (min (pyInt required_lots) maxLots)
    let final_qty := final_lots * lotSize
    (final_lots, final_qty, risk_per_unit * (final_qty : ℚ))

/-- Filter/sizing configuration constants imported by strike_filter.py from
config.py (not in the sources).  Modelled from the spec:
entry price bounds 100-300, VWAP premium minimum 4%, SL percent 2-10%,
TARGET_SL_POINTS 10, R_VALUE 6500, MAX_LOTS_PER_POSITION 10, and
LOT_SIZE 65 (scenario S1: required_qty ~1083 units is ~16.7 lots). -/
structure FilterCfg where
  minEntryPrice : ℚ
  maxEntryPrice : ℚ
  minVwapPremium : ℚ
  minSlPercent : ℚ
  maxSlPercent : ℚ
  targetSlPoints : ℚ
  rValue : ℚ
  lotSize : ℤ
  maxLots : ℤ

/-- Modelled from the spec: the concrete config values listed in the spec
(sections 4.3, 6 and scenario S1) for the constants of config.py, which is
absent from the sources. -/
def specFilterCfg : FilterCfg :=
  { minEntryPrice := 100, maxEntryPrice := 300
    minVwapPremium := 4/100, minSlPercent := 2/100, maxSlPercent := 10/100
    targetSlPoints := 10, rValue := 6500, lotSize := 65, maxLots := 10 }

/-- Input candidate handed to `StrikeFilter._apply_entry_filters`
(the fields the function reads). -/
structure BreakCandidate where
  symbol : String
  entry_price : ℚ
  vwap_at_swing_low : ℚ
  highest_high_since_swing : ℚ
deriving DecidableEq

/-- A candidate enriched by `_apply_entry_filters` with the derived fields
it stores on the dict. -/
structure Enriched where
  symbol : String
  entry_price : ℚ
  vwap_at_swing_low : ℚ
  highest_high_since_swing : ℚ
  sl_price : ℚ
  sl_percent : ℚ
  sl_points : ℚ
  vwap_premium : ℚ
  lots : ℤ
  quantity : ℤ
  actual_R : ℚ
deriving DecidableEq

/-- `StrikeFilter._apply_entry_filters` (strike_filter.py lines 100-162):
returns the enriched candidate, or `none` when a filter rejects it. -/
def applyEntryFilters (cfg : FilterCfg) (c : BreakCandidate) : Option Enriched :=
  if ¬ (cfg.minEntryPrice ≤ c.entry_price ∧ c.entry_price ≤ cfg.maxEntryPrice) then
    none
  else
    let vwap_premium := (c.entry_price - c.vwap_at_swing_low) / c.vwap_at_swing_low
    if vwap_premium < cfg.minVwapPremium then
      none
    else
      let sl_price := c.highest_high_since_swing + 1
      let sl_percent := (sl_price - c.entry_price) / c.entry_price
      let sl_points := sl_price - c.entry_price
      if ¬ (cfg.minSlPercent ≤ sl_percent ∧ sl_percent ≤ cfg.maxSlPercent) then
        none
      else
        let s := calculatePositionSize cfg.rValue cfg.lotSize cfg.maxLots
                   c.entry_price sl_price
        some { symbol := c.symbol, entry_price := c.entry_price
               vwap_at_swing_low := c.vwap_at_swing_low
               highest_high_since_swing := c.highest_high_since_swing
               sl_price := sl_price, sl_percent := sl_percent
               sl_points := sl_points, vwap_premium := vwap_premium
               lots := s.1, quantity := s.2.1, actual_R := s.2.2 }

/-- Distance of a candidate's SL points from the target (sort key 1 of
`_select_best_strike`). -/
def slDist (cfg : FilterCfg) (x : Enriched) : ℚ :=
  |x.sl_points - cfg.targetSlPoints|

/-- Strict comparison under the sort key of `_select_best_strike`
(`(abs(sl_points - TARGET), -entry_price)` lexicographically). -/
def strictlyBetter (cfg : FilterCfg) (x y : Enriched) : Bool :=
  decide (slDist cfg x < slDist cfg y) ||
    (decide (slDist cfg x = slDist cfg y) && decide (y.entry_price < x.entry_price))

/-- `StrikeFilter._select_best_strike` (strike_filter.py lines 203-236).
`sorted(candidates, key=...)[0]` with a stable sort returns the first
element attaining the lexicographic minimum of the key; this fold computes
exactly that element. -/
def selectBestStrike (cfg : FilterCfg) (c : Enriched) (rest : List Enriched) :
    Enriched :=
  rest.foldl (fun best x => if strictlyBetter cfg x best then x else best) c

/-- `StrikeFilter.apply_filters` (strike_filter.py lines 47-98). -/
def applyFilters (cfg : FilterCfg) (cands : List BreakCandidate) :
    Option Enriched :=
  if cands.isEmpty then none
  else
    match cands.filterMap (applyEntryFilters cfg) with
    | [] => none
    | q :: qs => some (selectBestStrike cfg q qs)

/-! ## Order manager (order_manager.py)

Broker REST calls are modelled by an oracle record `Broker`:
`cancel` gives the classified result of `_cancel_broker_order`,
`verifyPolls` gives the sequence of orderbook responses seen by
`_verify_order_cancelled` (one entry per poll attempt), and `place` gives
the outcome of `_place_broker_stop_limit_order` (an order id, or `none`
after all retries fail).  The retry loops and sleeps inside those helpers
are real-time behaviour folded into the oracle's single answer. -/

/-- Result classification of `_cancel_broker_order`
(order_manager.py lines 1027-1063). -/
inductive CancelResult
  | success
  | terminal
  | failed
deriving DecidableEq

/-- One row of the broker orderbook as read by `_verify_order_cancelled`
(the fields it inspects). -/
structure OrderRow where
  orderid : String
  order_status : String
deriving DecidableEq

/-- One orderbook poll response, as classified by the defensive parsing in
`_verify_order_cancelled` (order_manager.py lines 1092-1124):
`fetchFail` covers a non-success status or an exception, `strPayload` a
string payload, `dictNoList b` a dict payload without a list under the keys
orders/data/order_book (`b` records whether the dict is empty), and
`rows l` a list payload (given directly or extracted from a dict key). -/
inductive ObResp
  | fetchFail
  | strPayload
  | dictNoList (isEmpty : Bool)
  | rows (orders : List OrderRow)
deriving DecidableEq

/-- Outcome of one poll attempt inside `_verify_order_cancelled`:
`some true` = verified cancelled, `some false` = order filled (definitive
failure), `none` = inconclusive, keep polling. -/
def verifyAttempt (r : ObResp) (order_id : String) : Option Bool :=
  match r with
  | .fetchFail => none
  | .strPayload => none
  | .dictNoList isEmpty => if isEmpty then some true else none
  | .rows orders =>
    match orders.find? (fun o => o.orderid == order_id) with
    | none => some true
    | some o =>
      let st := o.order_status.toLower
      if st == "cancelled" || st == "rejected" then some true
      else if st == "complete" || st == "filled" then some false
      else none

/-- The poll loop of `_verify_order_cancelled` over a fixed list of
responses: returns `false` when the attempts run out unconfirmed. -/
def verifyLoop (order_id : String) : List ObResp → Bool
  | [] => false
  | r :: rest =>
    match verifyAttempt r order_id with
    | some b => b
    | none => verifyLoop order_id rest

/-- `_verify_order_cancelled(order_id)` with the default `max_retries = 3`
(order_manager.py lines 1065-1157): up to 3 orderbook polls. -/
def verifyOrderCancelled (polls : List ObResp) (order_id : String) : Bool :=
  verifyLoop order_id (polls.take 3)

/-- Broker oracle for `manage_limit_order_for_type`. -/
structure Broker where
  cancel : String → CancelResult
  verifyPolls : String → List ObResp
  place : String → ℚ → ℚ → ℤ → Option String

/-- The candidate dict fields read by `manage_limit_order_for_type`.
`tick_size` is optional because the source uses
`candidate.get('tick_size', 0.05)`. -/
structure Candidate where
  symbol : String
  quantity : ℤ
  swing_low : ℚ
  tick_size : Option ℚ
deriving DecidableEq

/-- A value of `pending_limit_orders[option_type]`
(the dict built at order_manager.py lines 823-832). -/
structure OrderEntry where
  order_id : String
  symbol : String
  trigger_price : ℚ
  limit_price : ℚ
  quantity : ℤ
  status : String
  placed_at : ℚ
  candidate_info : Candidate
deriving DecidableEq

/-- A broker-mutating call issued during `manage_limit_order_for_type`. -/
inductive BrokerEvent
  | cancelSent (order_id : String)
  | placeSent (symbol : String) (trigger_price limit_price : ℚ) (quantity : ℤ)
deriving DecidableEq

/-- `OrderManager.manage_limit_order_for_type(option_type, candidate,
limit_price)` (order_manager.py lines 769-936) for one option-type slot.
The method reads and writes only `pending_limit_orders[option_type]`, so
the state is that single slot (`Option OrderEntry`).  The in-flight
"PLACING" sentinel of Case 2 is set and then overwritten or deleted within
the same call, so it does not appear in the final state.  Returns
(result string, new slot value, broker calls made). -/
def manageLimitOrderForType (b : Broker) (now : ℚ)
    (pending : Option OrderEntry) (candidate : Option Candidate)
    (limit_price : Option ℚ) (modificationThreshold : ℚ) :
    String × Option OrderEntry × List BrokerEvent :=
  match candidate, limit_price with
  | none, _ | _, none =>
    -- Case 1: cancel existing order (no new candidate)
    match pending with
    | some existing =>
      let cr := b.cancel existing.order_id
      if cr = .success ∨ cr = .terminal then
        ("cancelled", none, [.cancelSent existing.order_id])
      else
        -- cancel failed: kept in memory to prevent orphaned open orders
        ("kept", some existing, [.cancelSent existing.order_id])
    | none => ("none", none, [])
  | some cand, some lp =>
    let symbol := cand.symbol
    let quantity := cand.quantity
    let trigger_price := cand.swing_low - cand.tick_size.getD (5/100)
    match pending with
    | none =>
      -- Case 2: no existing order - place new
      match b.place symbol trigger_price lp quantity with
      | some oid =>
        ("placed",
         some { order_id := oid, symbol := symbol
                trigger_price := trigger_price, limit_price := lp
                quantity := quantity, status := "pending"
                placed_at := now, candidate_info := cand },
         [.placeSent symbol trigger_price lp quantity])
      | none =>
        ("failed", none, [.placeSent symbol trigger_price lp quantity])
    | some existing =>
      if existing.symbol ≠ symbol then
        -- Case 3: different symbol - cancel old, then place new
        let cr := b.cancel existing.order_id
        if cr = .failed then
          ("kept", some existing, [.cancelSent existing.order_id])
        else if cr = .success ∧
            ¬ verifyOrderCancelled (b.verifyPolls existing.order_id)
                existing.order_id then
          ("kept", some existing, [.cancelSent existing.order_id])
        else
          match b.place symbol trigger_price lp quantity with
          | some oid =>
            ("modified",
             some { order_id := oid, symbol := symbol
                    trigger_price := trigger_price, limit_price := lp
                    quantity := quantity, status := "pending"
                    placed_at := now, candidate_info := cand },
             [.cancelSent existing.order_id,
              .placeSent symbol trigger_price lp quantity])
          | none =>
            ("failed", some existing,
             [.cancelSent existing.order_id,
              .placeSent symbol trigger_price lp quantity])
      else
        -- Case 4/5: same symbol - modify only on significant price change
        let trigger_diff := |existing.trigger_price - trigger_price|
        let limit_diff := |existing.limit_price - lp|
        if trigger_diff > modificationThreshold ∨
            limit_diff > modificationThreshold then
          let cr := b.cancel existing.order_id
          if cr = .failed then
            ("kept", some existing, [.cancelSent existing.order_id])
          else if cr = .success ∧
              ¬ verifyOrderCancelled (b.verifyPolls existing.order_id)
                  existing.order_id then
            ("kept", some existing, [.cancelSent existing.order_id])
          else
            match b.place symbol trigger_price lp quantity with
            | some oid =>
              -- in-place update: only order_id, trigger, limit, placed_at
              ("modified",
               some { existing with order_id := oid,
                                    trigger_price := trigger_price,
                                    limit_price := lp,
                                    placed_at := now },
               [.cancelSent existing.order_id,
                .placeSent symbol trigger_price lp quantity])
            | none =>
              ("failed", some existing,
               [.cancelSent existing.order_id,
                .placeSent symbol trigger_price lp quantity])
        else
          ("kept", some existing, [])

/-- Predicate: the event is a broker order placement. -/
def BrokerEvent.isPlace : BrokerEvent → Bool
  | .placeSent _ _ _ _ => true
  | .cancelSent _ => false

/-! ## Fill handling (baseline_v1_live.py)

`BaselineV1Live._compute_live_sl_price` reads the swing detector's bar
dicts (fields `timestamp` and `high`, read via `bar.get('high', 0.0)`) and
the pipeline's current incomplete bar (field `high`, possibly `None`). -/

/-- A swing-detector bar as read by `_compute_live_sl_price`. -/
structure DetBar where
  timestamp : ℚ
  high : Option ℚ
deriving DecidableEq

/-- The current incomplete bar as read by `_compute_live_sl_price`. -/
structure CurBar where
  high : Option ℚ
deriving DecidableEq

/-- The candidate_info fields read by `handle_order_fill` and
`_compute_live_sl_price`. -/
structure CandInfo where
  sl_price : ℚ
  actual_R : ℚ
  swing_time : Option ℚ
deriving DecidableEq

/-- `BaselineV1Live._compute_live_sl_price(symbol, candidate_info)`
(baseline_v1_live.py lines 1066-1111).  `detBars` is
`swing_detector.detectors.get(symbol).bars` (`none` when the detector is
missing), `curBar` is `data_pipeline.get_all_current_bars().get(symbol)`.
The running maximum starts at `0.0` and covers every detector bar whose
timestamp is at or after the swing time, then the current incomplete bar's
high when present; the live SL is that maximum plus 1 and is used only when
it exceeds the stored stale SL. -/
def computeLiveSlPrice (detBars : Option (List DetBar))
    (candidate_info : CandInfo) (curBar : Option CurBar) : ℚ :=
  match detBars with
  | none => candidate_info.sl_price
  | some bars =>
    if bars.isEmpty then candidate_info.sl_price
    else
      match candidate_info.swing_time with
      | none => candidate_info.sl_price
      | some swing_time =>
        let rel := bars.filter (fun bar => decide (swing_time ≤ bar.timestamp))
        if rel.isEmpty then candidate_info.sl_price
        else
          let hhBars := rel.foldl (fun acc bar => max acc (bar.high.getD 0)) 0
          let hh :=
            match curBar with
            | some cb =>
              match cb.high with
              | some h => max hhBars h
              | none => hhBars
            | none => hhBars
          let live_sl := hh + 1
          if live_sl > candidate_info.sl_price then live_sl
          else candidate_info.sl_price

/-- The highest high over the detector bars at/after the swing time
(each bar's high read with default 0, starting accumulator 0), extended by
the current incomplete bar's high when present — the quantity
`highest_high` of `_compute_live_sl_price` in its data-available case. -/
def liveHighestHigh (bars : List DetBar) (swing_time : ℚ)
    (curBar : Option CurBar) : ℚ :=
  let hhBars := (bars.filter (fun bar => decide (swing_time ≤ bar.timestamp))).foldl
    (fun acc bar => max acc (bar.high.getD 0)) 0
  match curBar with
  | some cb =>
    match cb.high with
    | some h => max hhBars h
    | none => hhBars
  | none => hhBars

/-- The fill dict fields read by `handle_order_fill` (symbol, order_id,
fill_price, quantity, candidate_info; `option_type` only feeds logging). -/
structure Fill where
  symbol : String
  order_id : String
  fill_price : ℚ
  quantity : ℤ
  candidate_info : CandInfo
deriving DecidableEq

/-- The dedup key derived at baseline_v1_live.py line 1122:
`f"{symbol}_{order_id}_{fill_price}"`, i.e. a deterministic function of
the triple (symbol, order_id, fill_price). -/
def fillKey (f : Fill) : String × String × ℚ :=
  (f.symbol, f.order_id, f.fill_price)

/-- Per-symbol pipeline data available at fill time. -/
structure FillEnv where
  detBars : String → Option (List DetBar)
  curBar : String → Option CurBar

/-- The externally visible tracker/broker calls of `handle_order_fill`
that create positions or stop-loss orders. -/
inductive FillEvent
  | addPosition (symbol : String) (entry_price sl_price : ℚ)
      (quantity : ℤ) (actual_R : ℚ)
  | placeSL (symbol : String) (trigger_price : ℚ) (quantity : ℤ)
deriving DecidableEq

/-- `BaselineV1Live.handle_order_fill(fill, current_prices)`
(baseline_v1_live.py lines 1113-1152): if the fill key was already
processed the call returns immediately; otherwise it records the key,
recomputes the SL price live, adds the position and places the SL order.
The SL-failure branch that follows (emergency market exit and local close)
never calls `add_position` or `place_sl_order` again, so the events
relevant to the claims are exactly the two listed.  Returns the new
processed-key set and the events of this call. -/
def handleOrderFill (env : FillEnv) (processed : List (String × String × ℚ))
    (f : Fill) : List (String × String × ℚ) × List FillEvent :=
  if fillKey f ∈ processed then
    (processed, [])
  else
    let live_sl := computeLiveSlPrice (env.detBars f.symbol)
      f.candidate_info (env.curBar f.symbol)
    (fillKey f :: processed,
     [.addPosition f.symbol f.fill_price live_sl f.quantity
        f.candidate_info.actual_R,
      .placeSL f.symbol live_sl f.quantity])

/-- A sequence of `handle_order_fill` calls, pairing each fill with the
events its call produced. -/
def runFills (env : FillEnv) (processed : List (String × String × ℚ)) :
    List Fill → List (Fill × List FillEvent)
  | [] => []
  | f :: fs =>
    let r := handleOrderFill env processed f
    (f, r.2) :: runFills env r.1 fs

/-- Number of calls in a run trace that belong to key `k` and actually
processed their fill (produced events). -/
def processedCount (k : String × String × ℚ)
    (trace : List (Fill × List FillEvent)) : ℕ :=
  (trace.filter (fun p => fillKey p.1 = k ∧ p.2 ≠ [])).length

/-! ## Connection monitor (data_pipeline.py lines 924-1063)

One iteration of `DataPipeline._connection_monitor_loop`, restricted to
the `is_failover_active = False` path (primary feed active) that claims
about failover triggering concern; the switchback arm taken when the
backup is already active is outside the scope of this embedding.
`_is_market_open()` is a clock read, modelled as the boolean field
`marketOpen` of the state snapshot. -/

/-- Monitor/failover configuration (config.py is not in the sources;
the fields correspond to FAILOVER_NO_TICK_THRESHOLD,
MAX_TICK_AGE_SECONDS and MIN_DATA_COVERAGE_THRESHOLD). -/
structure MonCfg where
  noTickThreshold : ℚ
  maxTickAge : ℚ
  coverageThreshold : ℚ

/-- Snapshot of the DataPipeline fields read by one monitor iteration. -/
structure MonState where
  is_reconnecting : Bool
  is_connected : Bool
  subscribed_symbols : List String
  first_data_received_at : Option ℚ
  subscription_started_at : Option ℚ
  marketOpen : Bool
  is_failover_active : Bool
  last_zerodha_tick_time : List (String × ℚ)
  last_tick_time : List (String × ℚ)
  angelone_is_connected : Bool
  auto_reconnect_enabled : Bool

/-- Dict lookup `m.get(s)` on an association list. -/
def lookupTime (m : List (String × ℚ)) (s : String) : Option ℚ :=
  (m.find? (fun e => e.1 == s)).map Prod.snd

/-- Python `max(m.values())` for a non-empty association list
(0 for the empty list, which callers guard against). -/
def maxTickValue (m : List (String × ℚ)) : ℚ :=
  match m with
  | [] => 0
  | e :: es => es.foldl (fun a x => max a x.2) e.2

/-- The reason categories of `_trigger_failover_or_reconnect` calls made
by the monitor loop. -/
inductive TrigCat
  | wsDisconnected
  | noTicksSinceSubscribe
  | noTicks
  | lowCoverage
deriving DecidableEq

/-- What one monitor iteration does. -/
inductive MonitorAction
  | noAction
  | failover (cat : TrigCat)
  | reconnectPrimary (cat : TrigCat)
  | ignoredTrigger (cat : TrigCat)
deriving DecidableEq

/-- `DataPipeline._trigger_failover_or_reconnect(reason)`
(data_pipeline.py lines 1069-1103): ignored while auto-reconnect is off or
a reconnect is in flight; fails over to the backup when it is connected
and not already active; otherwise plain reconnect of the primary. -/
def dispatchTrigger (st : MonState) (cat : TrigCat) : MonitorAction :=
  if !st.auto_reconnect_enabled then .ignoredTrigger cat
  else if st.is_reconnecting then .ignoredTrigger cat
  else if st.angelone_is_connected && !st.is_failover_active then .failover cat
  else .reconnectPrimary cat

/-- Check 2a of the monitor loop (data_pipeline.py lines 964-981):
subscribed, no tick ever received, subscription-start known, market open,
and subscribed for longer than the no-tick threshold. -/
def noTicksSinceSubscribeCond (cfg : MonCfg) (st : MonState) (now : ℚ) : Bool :=
  !st.subscribed_symbols.isEmpty && st.first_data_received_at.isNone &&
    (match st.subscription_started_at with
     | some t => st.marketOpen && decide (now - t > cfg.noTickThreshold)
     | none => false)

/-- The Zerodha tick-staleness condition of the primary-active branch
(data_pipeline.py lines 996-1010): the newest primary tick (falling back to
`last_tick_time` when the shadow map is empty) is older than the
threshold. -/
def noTicksCond (cfg : MonCfg) (st : MonState) (now : ℚ) : Bool :=
  let src := if !st.last_zerodha_tick_time.isEmpty
             then st.last_zerodha_tick_time else st.last_tick_time
  !src.isEmpty && decide (now - maxTickValue src > cfg.noTickThreshold)

/-- The fresh-symbol coverage test (data_pipeline.py lines 1038-1051):
a symbol is fresh when its last tick is at most `maxTickAge` old. -/
def lowCoverageCond (cfg : MonCfg) (st : MonState) (now : ℚ) : Bool :=
  let fresh := (st.subscribed_symbols.filter (fun s =>
    match lookupTime st.last_tick_time s with
    | some tt => decide (now - tt ≤ cfg.maxTickAge)
    | none => false)).length
  let total := st.subscribed_symbols.length
  let coverage : ℚ := if total = 0 then 0 else (fresh : ℚ) / (total : ℚ)
  decide (coverage < cfg.coverageThreshold)

/-- One iteration of `_connection_monitor_loop` (data_pipeline.py lines
938-1057) on the primary-active path: the checks run in source order and
the first that fires dispatches through `_trigger_failover_or_reconnect`;
data-flow checks are skipped before the first tick and outside market
hours. -/
def monitorCheckPrimary (cfg : MonCfg) (st : MonState) (now : ℚ) :
    MonitorAction :=
  if st.is_reconnecting then .noAction
  else if !st.is_connected then dispatchTrigger st .wsDisconnected
  else if noTicksSinceSubscribeCond cfg st now then
    dispatchTrigger st .noTicksSinceSubscribe
  else if !st.subscribed_symbols.isEmpty && st.first_data_received_at.isSome
  then
    if !st.marketOpen then .noAction
    else if noTicksCond cfg st now then dispatchTrigger st .noTicks
    else if lowCoverageCond cfg st now then dispatchTrigger st .lowCoverage
    else .noAction
  else .noAction

/-! ## Order churn circuit breaker

Modelled from the spec: the class `OrderChurnDetector` is imported from
`baseline_v1_live.order_manager` by tests/test_safety_fixes.py but its
source is not present in the repository snapshot.  The model follows
spec section 4.4 ("Churn circuit breaker") and the behaviour the test
suite pins down: a deque of per-symbol cancel events and a global
churn-cycle log; a cycle is a cancel followed within 30s by a place of the
same symbol; 2 cycles of one symbol in a 300s window block that symbol;
5 cycles across all symbols in the window return a strategy-pause
signal. -/

/-- Result of `OrderChurnDetector.record_place`. -/
inductive ChurnResult
  | ok
  | symbolBlocked
  | strategyPause
deriving DecidableEq

/-- Modelled from the spec: the churn limits (window 300s, cancel-to-place
gap 30s, per-symbol limit 2, global limit 5). -/
structure ChurnCfg where
  window : ℚ
  cycleGap : ℚ
  perSymbolLimit : ℕ
  globalLimit : ℕ

/-- The spec's churn limits. -/
def specChurnCfg : ChurnCfg :=
  { window := 300, cycleGap := 30, perSymbolLimit := 2, globalLimit := 5 }

/-- Modelled from the spec: `OrderChurnDetector` state — cancel events,
the churn-cycle log and the blocked-symbol set. -/
structure ChurnState where
  cancel_events : List (String × ℚ)
  churn_cycle_log : List (ℚ × String)
  blocked_symbols : List String
deriving DecidableEq

/-- A fresh `OrderChurnDetector`. -/
def ChurnState.empty : ChurnState :=
  { cancel_events := [], churn_cycle_log := [], blocked_symbols := [] }

/-- Modelled from the spec: `record_cancel(symbol)` at time `t` appends a
cancel event. -/
def recordCancel (st : ChurnState) (sym : String) (t : ℚ) : ChurnState :=
  { st with cancel_events := (sym, t) :: st.cancel_events }

/-- A cancel of `sym` within `gap` seconds before `t` exists. -/
def hasRecentCancel (events : List (String × ℚ)) (sym : String)
    (gap t : ℚ) : Bool :=
  events.any (fun e => e.1 == sym && decide (t - gap ≤ e.2) && decide (e.2 ≤ t))

/-- Churn cycles of `sym` in the window `(t - window, t]` of the log. -/
def cyclesFor (log : List (ℚ × String)) (sym : String) (window t : ℚ) : ℕ :=
  (log.filter (fun e => e.2 == sym && decide (t - window < e.1))).length

/-- All churn cycles in the window `(t - window, t]` of the log. -/
def cyclesAll (log : List (ℚ × String)) (window t : ℚ) : ℕ :=
  (log.filter (fun e => decide (t - window < e.1))).length

/-- Modelled from the spec: `record_place(symbol)` at time `t`.  A place
that completes a cancel-place cycle is logged; reaching the per-symbol
limit blocks the symbol, reaching the global limit returns the
strategy-pause signal. -/
def recordPlace (cfg : ChurnCfg) (st : ChurnState) (sym : String) (t : ℚ) :
    ChurnResult × ChurnState :=
  if hasRecentCancel st.cancel_events sym cfg.cycleGap t then
    let log := (t, sym) :: st.churn_cycle_log
    if cfg.perSymbolLimit ≤ cyclesFor log sym cfg.window t then
      (.symbolBlocked,
       { st with churn_cycle_log := log,
                 blocked_symbols := sym :: st.blocked_symbols })
    else if cfg.globalLimit ≤ cyclesAll log cfg.window t then
      (.strategyPause, { st with churn_cycle_log := log })
    else
      (.ok, { st with churn_cycle_log := log })
  else
    (.ok, st)

/-- Modelled from the spec: `is_blocked(symbol)`. -/
def isBlocked (st : ChurnState) (sym : String) : Bool :=
  st.blocked_symbols.contains sym

/-- Modelled from the spec and the test suite: the placement gate — the
order manager skips `_place_broker_stop_limit_order` for a churn-blocked
symbol (it returns `None` without calling the broker). -/
def churnAllowsPlace (st : ChurnState) (sym : String) : Bool :=
  !isBlocked st sym


/-! ### Concrete witness fixtures -/

/-- Concrete order id for witnesses. -/
def w8oid : String := "OID-8"

/-- Concrete option symbol for witnesses. -/
def w8sym : String := "NIFTY-CE-A"

/-- The literal status string stored on pending entries. -/
def w8pending : String := "pending"

/-- Broker oracle whose cancel always fails (for witnesses). -/
def failingBroker : Broker :=
  { cancel := fun _ => CancelResult.failed,
    verifyPolls := fun _ => [],
    place := fun _ _ _ _ => none }

/-- Concrete symbol of the replacement candidate in witnesses. -/
def w1symB : String := "NIFTY-CE-B"

/-- Concrete pending entry used by the C1 witness. -/
def w1entry : OrderEntry :=
  { order_id := w8oid, symbol := w8sym, trigger_price := 100,
    limit_price := 97, quantity := 65, status := w8pending, placed_at := 0,
    candidate_info := { symbol := w8sym, quantity := 65,
                        swing_low := (10005 : ℚ)/100,
                        tick_size := some (5/100) } }

/-- Concrete replacement candidate (different symbol) used by the C1
witness. -/
def w1cand : Candidate :=
  { symbol := w1symB, quantity := 65, swing_low := (20005 : ℚ)/100,
    tick_size := some (5/100) }

/-- Broker oracle whose cancel always reports success (for witnesses). -/
def succeedingBroker : Broker :=
  { cancel := fun _ => CancelResult.success,
    verifyPolls := fun _ => [ObResp.rows []],
    place := fun _ _ _ _ => none }

/-- Concrete fill symbol for witnesses. -/
def wFillSym : String := "NIFTY-CE-F"

/-- Concrete fill order id for witnesses. -/
def wFillOid : String := "OID-F"

/-- Concrete detector bars for fill witnesses. -/
def wBars : List DetBar :=
  [{ timestamp := 0, high := some 104 }, { timestamp := 10, high := some 105 }]

/-- Concrete pipeline environment for fill witnesses. -/
def wFillEnv : FillEnv :=
  { detBars := fun _ => some wBars,
    curBar := fun _ => some { high := some (103 : ℚ) } }

/-- Concrete fill for witnesses. -/
def wFill : Fill :=
  { symbol := wFillSym, order_id := wFillOid, fill_price := 100,
    quantity := 650,
    candidate_info := { sl_price := 104, actual_R := 6500,
                        swing_time := some 5 } }

/-- Concrete qualified break candidate for the C7 witness (the middle
candidate of strike_filter.py's __main__ self-test: entry 200, VWAP 190,
highest high 209). -/
def w7c1 : BreakCandidate :=
  { symbol := wFillSym, entry_price := 200, vwap_at_swing_low := 190,
    highest_high_since_swing := 209 }

/-- Monitor config for C9 witnesses (spec timings: no-tick threshold 15s,
coverage threshold 50%; tick freshness age 10s). -/
def w9cfg : MonCfg :=
  { noTickThreshold := 15, maxTickAge := 10, coverageThreshold := 1/2 }

/-- Concrete symbols subscribed in the C9 snapshot. -/
def w9a : String := "A9"

/-- Second symbol of the C9 snapshot. -/
def w9b : String := "B9"

/-- Third symbol of the C9 snapshot. -/
def w9c : String := "C9"

/-- Concrete pipeline snapshot for C9: primary connected and recently
ticking on one of three subscribed symbols, backup connected, market open,
first low-coverage reading (no history of prior low-coverage checks is
even representable in the monitor loop). -/
def w9st : MonState :=
  { is_reconnecting := false, is_connected := true,
    subscribed_symbols := [w9a, w9b, w9c],
    first_data_received_at := some 0,
    subscription_started_at := some 0,
    marketOpen := true, is_failover_active := false,
    last_zerodha_tick_time := [(w9a, 95)],
    last_tick_time := [(w9a, 95), (w9b, 50), (w9c, 50)],
    angelone_is_connected := true, auto_reconnect_enabled := true }

/-- A cancel or place request fed to the churn detector, with its time. -/
inductive ChurnOp
  | cancelOp (sym : String) (t : ℚ)
  | placeOp (sym : String) (t : ℚ)
deriving DecidableEq

/-- Run a sequence of churn-detector operations, collecting the result of
every place. -/
def runChurnOps (cfg : ChurnCfg) (st : ChurnState) :
    List ChurnOp → ChurnState × List ChurnResult
  | [] => (st, [])
  | ChurnOp.cancelOp s t :: rest => runChurnOps cfg (recordCancel st s t) rest
  | ChurnOp.placeOp s t :: rest =>
    let r := recordPlace cfg st s t
    let rr := runChurnOps cfg r.2 rest
    (rr.1, r.1 :: rr.2)

/-- Fourth concrete symbol for the churn witness. -/
def w3d : String := "D9"

/-- Fifth concrete symbol for the churn witness. -/
def w3e : String := "E9"

/-! ## Supporting lemmas -/

lemma pyOrQ_some_of_ne (H : ℚ) (y : ℚ) (h : H ≠ 0) : pyOrQ (some H) y = H := by
  simp [pyOrQ, h]

lemma init_le_foldlMax :
    ∀ (ts : List (ℚ × ℤ)) (a : ℚ), a ≤ ts.foldl (fun x p => max x p.1) a := by
  intro ts
  induction ts with
  | nil => intro a; simp
  | cons p rest ih =>
    intro a
    calc a ≤ max a p.1 := le_max_left _ _
    _ ≤ rest.foldl (fun x q => max x q.1) (max a p.1) := ih _

lemma foldlMax_mono :
    ∀ (ts : List (ℚ × ℤ)) (a b : ℚ), a ≤ b →
      ts.foldl (fun x p => max x p.1) a ≤ ts.foldl (fun x p => max x p.1) b := by
  intro ts
  induction ts with
  | nil => intro a b h; simpa using h
  | cons p rest ih =>
    intro a b h
    exact ih _ _ (max_le_max h le_rfl)

lemma mem_le_foldlMax :
    ∀ (ts : List (ℚ × ℤ)) (a : ℚ) (p : ℚ × ℤ), p ∈ ts →
      p.1 ≤ ts.foldl (fun x q => max x q.1) a := by
  intro ts
  induction ts with
  | nil => intro a p h; simp at h
  | cons q rest ih =>
    intro a p h
    rcases List.mem_cons.mp h with h | h
    · subst h
      calc p.1 ≤ max a p.1 := le_max_right _ _
      _ ≤ rest.foldl (fun x r => max x r.1) (max a p.1) := init_le_foldlMax _ _
    · exact ih _ _ h

lemma foldlMin_le_init :
    ∀ (ts : List (ℚ × ℤ)) (a : ℚ), ts.foldl (fun x p => min x p.1) a ≤ a := by
  intro ts
  induction ts with
  | nil => intro a; simp
  | cons p rest ih =>
    intro a
    calc rest.foldl (fun x q => min x q.1) (min a p.1) ≤ min a p.1 := ih _
    _ ≤ a := min_le_left _ _

lemma foldlMin_le_mem :
    ∀ (ts : List (ℚ × ℤ)) (a : ℚ) (p : ℚ × ℤ), p ∈ ts →
      ts.foldl (fun x q => min x q.1) a ≤ p.1 := by
  intro ts
  induction ts with
  | nil => intro a p h; simp at h
  | cons q rest ih =>
    intro a p h
    rcases List.mem_cons.mp h with h | h
    · subst h
      calc rest.foldl (fun x r => min x r.1) (min a p.1)
          ≤ min a p.1 := foldlMin_le_init _ _
      _ ≤ p.1 := min_le_right _ _
    · exact ih _ _ h

lemma barFold_inv :
    ∀ (ts : List (ℚ × ℤ)) (b : BarState) (o H L : ℚ),
    b.openPrice = some o → b.high = some H → b.low = some L →
    0 < H → 0 < L → (∀ p ∈ ts, 0 < p.1) →
    (ts.foldl (fun x p => x.update_tick p.1 p.2) b).openPrice = some o ∧
    (ts.foldl (fun x p => x.update_tick p.1 p.2) b).high
        = some (ts.foldl (fun a x => max a x.1) H) ∧
    (ts.foldl (fun x p => x.update_tick p.1 p.2) b).low
        = some (ts.foldl (fun a x => min a x.1) L) ∧
    (ts.foldl (fun x p => x.update_tick p.1 p.2) b).volume
        = ts.foldl (fun a x => a + x.2) b.volume ∧
    (ts.foldl (fun x p => x.update_tick p.1 p.2) b).tick_count
        = b.tick_count + ts.length := by
  intro ts
  induction ts with
  | nil =>
    intro b o H L ho hh hl _ _ _
    exact ⟨ho, hh, hl, rfl, rfl⟩
  | cons p rest ih =>
    intro b o H L ho hh hl hHpos hLpos hpos
    have hp : 0 < p.1 := hpos p (List.mem_cons_self p rest)
    have hb' : (b.update_tick p.1 p.2).openPrice = some o := by
      simp [BarState.update_tick, ho]
    have hh' : (b.update_tick p.1 p.2).high = some (max H p.1) := by
      simp [BarState.update_tick, hh, pyOrQ_some_of_ne H p.1 (ne_of_gt hHpos)]
    have hl' : (b.update_tick p.1 p.2).low = some (min L p.1) := by
      simp [BarState.update_tick, hl, pyOrQ_some_of_ne L p.1 (ne_of_gt hLpos)]
    have := ih (b.update_tick p.1 p.2) o (max H p.1) (min L p.1) hb' hh' hl'
      (lt_max_of_lt_left hHpos) (lt_min hLpos hp)
      (fun q hq => hpos q (List.mem_cons_of_mem p hq))
    refine ⟨this.1, this.2.1, this.2.2.1, ?_, ?_⟩
    · have hv : (b.update_tick p.1 p.2).volume = b.volume + p.2 := rfl
      simpa [hv] using this.2.2.2.1
    · have hc : (b.update_tick p.1 p.2).tick_count = b.tick_count + 1 := rfl
      have h2 := this.2.2.2.2
      rw [hc] at h2
      simp only [List.foldl_cons, List.length_cons]
      omega

lemma barFold_close :
    ∀ (ts : List (ℚ × ℤ)) (b : BarState),
    (ts.foldl (fun x p => x.update_tick p.1 p.2) b).close
      = (match ts.getLast? with
         | none => b.close
         | some p => some p.1) := by
  intro ts
  induction ts with
  | nil => intro b; rfl
  | cons p rest ih =>
    intro b
    have h1 : (p :: rest).foldl (fun x q => x.update_tick q.1 q.2) b
        = rest.foldl (fun x q => x.update_tick q.1 q.2) (b.update_tick p.1 p.2) :=
      rfl
    rw [h1, ih]
    cases hr : rest.getLast? with
    | none =>
      have : rest = [] := List.getLast?_eq_none_iff.mp hr
      subst this
      rfl
    | some q =>
      cases rest with
      | nil => simp at hr
      | cons r rs => simp [List.getLast?_cons_cons, hr]

lemma volSum_shift :
    ∀ (ts : List (ℚ × ℤ)) (a : ℤ),
      ts.foldl (fun x p => x + p.2) a = a + volSum ts := by
  intro ts
  induction ts with
  | nil => intro a; simp [volSum]
  | cons p rest ih =>
    intro a
    have h1 : volSum (p :: rest) = p.2 + volSum rest := by
      have := ih p.2
      simpa [volSum] using this
    simp only [List.foldl_cons]
    rw [ih, h1]
    ring

/-! ## Claim C10 -/

/-- C10 counterexample: the claim fails as stated.  For the tick sequence
ltp 0 then ltp 5 (volumes 1), `update_tick`'s Python `self.low or ltp`
treats the stored low `0.0` as falsy and replaces it, so the built bar's
low is 5 while the minimum ltp seen is 0. -/
theorem C10_counterexample :
    (buildBar [((0 : ℚ), (1 : ℤ)), ((5 : ℚ), (1 : ℤ))]).low = some 5 ∧
    ltpMin ((0 : ℚ), (1 : ℤ)) [((5 : ℚ), (1 : ℤ))] = 0 := by
  constructor <;> decide

/-- C10 (amended with the positivity proviso): for every BarData built by a
non-empty sequence of `update_tick(ltp, volume)` calls whose ltps are all
positive, open is the first ltp, close is the last, high is the maximum
ltp, low is the minimum ltp (hence low ≤ open ≤ high and
low ≤ close ≤ high), volume is the sum of tick volumes and tick_count the
number of ticks. -/
theorem C10_bar_invariant (t : ℚ × ℤ) (ts : List (ℚ × ℤ))
    (hpos : ∀ p ∈ t :: ts, 0 < p.1) :
    (buildBar (t :: ts)).openPrice = some t.1 ∧
    (buildBar (t :: ts)).high = some (ltpMax t ts) ∧
    (buildBar (t :: ts)).low = some (ltpMin t ts) ∧
    (buildBar (t :: ts)).close
        = some (((t :: ts).getLast (List.cons_ne_nil t ts)).1) ∧
    (buildBar (t :: ts)).volume = volSum (t :: ts) ∧
    (buildBar (t :: ts)).tick_count = (t :: ts).length ∧
    ltpMin t ts ≤ t.1 ∧ t.1 ≤ ltpMax t ts ∧
    ltpMin t ts ≤ ((t :: ts).getLast (List.cons_ne_nil t ts)).1 ∧
    ((t :: ts).getLast (List.cons_ne_nil t ts)).1 ≤ ltpMax t ts := by
  have hpt : 0 < t.1 := hpos t (List.mem_cons_self t ts)
  have hb1o : (BarState.init.update_tick t.1 t.2).openPrice = some t.1 := rfl
  have hb1h : (BarState.init.update_tick t.1 t.2).high = some t.1 := by
    show some (max (pyOrQ none t.1) t.1) = some t.1
    simp [pyOrQ]
  have hb1l : (BarState.init.update_tick t.1 t.2).low = some t.1 := by
    show some (min (pyOrQ none t.1) t.1) = some t.1
    simp [pyOrQ]
  have hrest : ∀ p ∈ ts, 0 < p.1 :=
    fun p hp => hpos p (List.mem_cons_of_mem t hp)
  have hmain := barFold_inv ts (BarState.init.update_tick t.1 t.2) t.1 t.1 t.1
    hb1o hb1h hb1l hpt hpt hrest
  have hfold : buildBar (t :: ts)
      = ts.foldl (fun x p => x.update_tick p.1 p.2)
          (BarState.init.update_tick t.1 t.2) := rfl
  have hclose := barFold_close ts (BarState.init.update_tick t.1 t.2)
  have hlastmem := List.getLast_mem (List.cons_ne_nil t ts)
  have hlast_close : (buildBar (t :: ts)).close
      = some (((t :: ts).getLast (List.cons_ne_nil t ts)).1) := by
    rw [hfold, hclose]
    cases ts with
    | nil => rfl
    | cons q ts' =>
      have hne : (q :: ts') ≠ [] := List.cons_ne_nil q ts'
      rw [List.getLast?_eq_getLast (q :: ts') hne]
      have : (t :: q :: ts').getLast (List.cons_ne_nil t (q :: ts'))
          = (q :: ts').getLast hne := by
        simp [List.getLast_cons]
      rw [this]
  refine ⟨by rw [hfold]; exact hmain.1,
          by rw [hfold]; exact hmain.2.1,
          by rw [hfold]; exact hmain.2.2.1,
          hlast_close,
          ?_, ?_, ?_, ?_, ?_, ?_⟩
  · rw [hfold]
    have h := hmain.2.2.2.1
    rw [h]
    rfl
  · rw [hfold]
    have h := hmain.2.2.2.2
    rw [h]
    show 1 + ts.length = ts.length + 1
    omega
  · exact foldlMin_le_init ts t.1
  · exact init_le_foldlMax ts t.1
  · rcases List.mem_cons.mp hlastmem with h | h
    · rw [h]; exact foldlMin_le_init ts t.1
    · exact foldlMin_le_mem ts t.1 _ h
  · rcases List.mem_cons.mp hlastmem with h | h
    · rw [h]; exact init_le_foldlMax ts t.1
    · exact mem_le_foldlMax ts t.1 _ h

/-- C10 witness: the amended invariant evaluated on the concrete tick
sequence (2, 3), (1, 4). -/
theorem C10_bar_invariant_witness :
    (buildBar [((2 : ℚ), (3 : ℤ)), ((1 : ℚ), (4 : ℤ))]).low = some 1 ∧
    (buildBar [((2 : ℚ), (3 : ℤ)), ((1 : ℚ), (4 : ℤ))]).volume = 7 := by
  have h := C10_bar_invariant ((2 : ℚ), (3 : ℤ)) [((1 : ℚ), (4 : ℤ))]
    (by decide)
  exact ⟨h.2.2.1.trans (by decide), h.2.2.2.2.1.trans (by decide)⟩

/-! ## Claim C6 -/

/-- C6 counterexample: the claim fails as stated.  With the spec constants
(R_VALUE 6500, LOT_SIZE 65, MAX_LOTS_PER_POSITION 10), entry 100 and
SL 135, the code returns 2 lots (`int()` truncation of 2.857…), yet 3 lots
(also within the cap) makes |R_actual − R_target| strictly smaller
(325 versus 1950): the returned lot count does not minimise the distance
to the target risk. -/
theorem C6_counterexample :
    (calculatePositionSize 6500 65 10 100 135).1 = 2 ∧
    |(135 - 100 : ℚ) * ((3 : ℚ) * 65) - 6500| <
      |(135 - 100 : ℚ) * (((calculatePositionSize 6500 65 10 100 135).1 : ℚ) * 65)
        - 6500| ∧
    (1 : ℤ) ≤ 3 ∧ (3 : ℤ) ≤ 10 := by
  have hfloor : ⌊(6500 : ℚ) / (135 - 100) / ((65 : ℤ) : ℚ)⌋ = 2 := by
    norm_num [Int.floor_eq_iff]
  have h1 : (calculatePositionSize 6500 65 10 100 135).1 = 2 := by
    simp only [calculatePositionSize, pyInt]
    norm_num [hfloor]
  refine ⟨h1, ?_, by norm_num, by norm_num⟩
  rw [h1]
  norm_num [abs]

/-- C6 (amended): for entry < SL (and nonnegative R_VALUE, positive
LOT_SIZE), the lot count is the floor of
R_VALUE / ((sl − entry) · LOT_SIZE) — i.e. `int()` truncation, not the
|R_actual − R_target| minimiser — clamped to [1, MAX_LOTS_PER_POSITION];
quantity = lots · LOT_SIZE and actual_R = (sl − entry) · quantity. -/
theorem C6_position_sizing (rValue : ℚ) (lotSize maxLots : ℤ)
    (entry sl : ℚ) (hsl : entry < sl) (hR : 0 ≤ rValue)
    (hlot : 0 < lotSize) :
    (calculatePositionSize rValue lotSize maxLots entry sl).1
        = max 1 (min ⌊rValue / ((sl - entry) * (lotSize : ℚ))⌋ maxLots) ∧
    (calculatePositionSize rValue lotSize maxLots entry sl).2.1
        = (calculatePositionSize rValue lotSize maxLots entry sl).1 * lotSize ∧
    (calculatePositionSize rValue lotSize maxLots entry sl).2.2
        = (sl - entry) *
          ((calculatePositionSize rValue lotSize maxLots entry sl).2.1 : ℚ) := by
  have hrisk : ¬ (sl - entry ≤ 0) := by linarith
  have hlotQ : (0 : ℚ) < (lotSize : ℚ) := by exact_mod_cast hlot
  have hriskpos : (0 : ℚ) < sl - entry := by linarith
  have hreq : 0 ≤ rValue / (sl - entry) / (lotSize : ℚ) :=
    div_nonneg (div_nonneg hR (le_of_lt hriskpos)) (le_of_lt hlotQ)
  have hPyInt : pyInt (rValue / (sl - entry) / (lotSize : ℚ))
      = ⌊rValue / ((sl - entry) * (lotSize : ℚ))⌋ := by
    rw [pyInt, if_pos hreq, div_div]
  simp only [calculatePositionSize, if_neg hrisk]
  exact ⟨by rw [hPyInt], by trivial, by trivial⟩

/-- C6 witness: sizing at R_VALUE 6500, LOT_SIZE 65, cap 10, entry 100,
SL 110: exactly 10 lots, quantity 650, actual_R 6500. -/
theorem C6_position_sizing_witness :
    (calculatePositionSize 6500 65 10 100 110).1 = 10 ∧
    (calculatePositionSize 6500 65 10 100 110).2.1 = 650 ∧
    (calculatePositionSize 6500 65 10 100 110).2.2 = 6500 := by
  have h := C6_position_sizing 6500 65 10 100 110 (by norm_num) (by norm_num)
    (by norm_num)
  have hfloor : (1 : ℤ) ⊔ ⌊(6500 : ℚ) / ((110 - 100) * ((65 : ℤ) : ℚ))⌋ ⊓ 10
      = 10 := by
    norm_num [Int.floor_eq_iff]
  have h1 : (calculatePositionSize 6500 65 10 100 110).1 = 10 :=
    h.1.trans hfloor
  refine ⟨h1, ?_, ?_⟩
  · rw [h.2.1, h1]; norm_num
  · rw [h.2.2, h.2.1, h1]
    norm_num

/-! ## Claims C8, C1, C4 (order manager) -/

/-- C8: for a pending entry order of the same symbol as the new candidate,
the call keeps the existing order untouched (returning "kept" and making no
broker call) whenever both the trigger-price and the limit-price
differences are at most MODIFICATION_THRESHOLD — including exact equality —
and a cancel-and-replace is attempted only when one difference is strictly
greater than the threshold. -/
theorem C8_strict_threshold (b : Broker) (now : ℚ) (existing : OrderEntry)
    (cand : Candidate) (lp T : ℚ) (hsym : existing.symbol = cand.symbol) :
    ((|existing.trigger_price - (cand.swing_low - cand.tick_size.getD (5/100))| ≤ T ∧
      |existing.limit_price - lp| ≤ T) →
      manageLimitOrderForType b now (some existing) (some cand) (some lp) T
        = ("kept", some existing, [])) ∧
    ((manageLimitOrderForType b now (some existing) (some cand) (some lp) T).2.2
        ≠ [] →
      T < |existing.trigger_price - (cand.swing_low - cand.tick_size.getD (5/100))| ∨
      T < |existing.limit_price - lp|) := by
  have hne : ¬ (existing.symbol ≠ cand.symbol) := by simp [hsym]
  constructor
  · intro hle
    have hcond : ¬ (|existing.trigger_price -
        (cand.swing_low - cand.tick_size.getD (5/100))| > T ∨
        |existing.limit_price - lp| > T) := by
      push_neg
      exact hle
    simp only [manageLimitOrderForType, if_neg hne, if_neg hcond]
  · intro hev
    by_contra hcon
    push_neg at hcon
    have hcond : ¬ (|existing.trigger_price -
        (cand.swing_low - cand.tick_size.getD (5/100))| > T ∨
        |existing.limit_price - lp| > T) := by
      push_neg
      exact hcon
    apply hev
    simp only [manageLimitOrderForType, if_neg hne, if_neg hcond]


/-- C8 witness: with trigger and limit drift exactly equal to the
threshold, the concrete call keeps the existing order and issues no broker
call. -/
theorem C8_strict_threshold_witness :
    manageLimitOrderForType
      { cancel := fun _ => CancelResult.failed,
        verifyPolls := fun _ => [],
        place := fun _ _ _ _ => none }
      0
      (some { order_id := w8oid, symbol := w8sym, trigger_price := 100,
              limit_price := 97, quantity := 65, status := w8pending,
              placed_at := 0,
              candidate_info := { symbol := w8sym, quantity := 65,
                                  swing_low := (10005 : ℚ)/100,
                                  tick_size := some (5/100) } })
      (some { symbol := w8sym, quantity := 65, swing_low := (10105 : ℚ)/100,
              tick_size := some (5/100) })
      (some 98) 1
      = ("kept",
         some { order_id := w8oid, symbol := w8sym, trigger_price := 100,
                limit_price := 97, quantity := 65, status := w8pending,
                placed_at := 0,
                candidate_info := { symbol := w8sym, quantity := 65,
                                    swing_low := (10005 : ℚ)/100,
                                    tick_size := some (5/100) } },
         []) := by
  have h := C8_strict_threshold
    { cancel := fun _ => CancelResult.failed,
      verifyPolls := fun _ => [],
      place := fun _ _ _ _ => none }
    0
    { order_id := w8oid, symbol := w8sym, trigger_price := 100,
      limit_price := 97, quantity := 65, status := w8pending,
      placed_at := 0,
      candidate_info := { symbol := w8sym, quantity := 65,
                          swing_low := (10005 : ℚ)/100,
                          tick_size := some (5/100) } }
    { symbol := w8sym, quantity := 65, swing_low := (10105 : ℚ)/100,
      tick_size := some (5/100) }
    98 1 rfl
  exact h.1 (by constructor <;> norm_num)

/-- C1: when a pending entry order's symbol differs from the new
candidate's (or its trigger/limit drift strictly exceeds the modification
threshold), and the broker cancel fails — or the cancel succeeds but the
synchronous verification over the up-to-3 orderbook polls does not confirm
the order cancelled/rejected/absent — then the call returns "kept", the
existing entry is unchanged in the slot, and no new broker order is placed
(the only broker call is the cancel). -/
theorem C1_cancel_before_place (b : Broker) (now : ℚ)
    (existing : OrderEntry) (cand : Candidate) (lp T : ℚ)
    (hdiff : existing.symbol ≠ cand.symbol ∨
      (existing.symbol = cand.symbol ∧
        (T < |existing.trigger_price -
              (cand.swing_low - cand.tick_size.getD (5/100))| ∨
         T < |existing.limit_price - lp|)))
    (hcancel : b.cancel existing.order_id = .failed ∨
      (b.cancel existing.order_id = .success ∧
        verifyOrderCancelled (b.verifyPolls existing.order_id)
          existing.order_id = false)) :
    manageLimitOrderForType b now (some existing) (some cand) (some lp) T
      = ("kept", some existing, [BrokerEvent.cancelSent existing.order_id]) ∧
    ∀ e ∈ (manageLimitOrderForType b now (some existing) (some cand)
            (some lp) T).2.2, e.isPlace = false := by
  have hmain : manageLimitOrderForType b now (some existing) (some cand)
      (some lp) T
      = ("kept", some existing, [BrokerEvent.cancelSent existing.order_id]) := by
    rcases hdiff with hd | ⟨hs, hdrift⟩
    · rcases hcancel with hc | ⟨hc, hv⟩
      · simp only [manageLimitOrderForType, if_pos hd, if_pos hc]
      · have hfail : ¬ (b.cancel existing.order_id = CancelResult.failed) := by
          rw [hc]; intro hcc; cases hcc
        have hcond : b.cancel existing.order_id = CancelResult.success ∧
            ¬ verifyOrderCancelled (b.verifyPolls existing.order_id)
                existing.order_id := ⟨hc, by rw [hv]; simp⟩
        simp only [manageLimitOrderForType, if_pos hd, if_neg hfail,
          if_pos hcond]
    · have hd' : ¬ (existing.symbol ≠ cand.symbol) := by simp [hs]
      have hdrift' : |existing.trigger_price -
          (cand.swing_low - cand.tick_size.getD (5/100))| > T ∨
          |existing.limit_price - lp| > T := hdrift
      rcases hcancel with hc | ⟨hc, hv⟩
      · simp only [manageLimitOrderForType, if_neg hd', if_pos hdrift',
          if_pos hc]
      · have hfail : ¬ (b.cancel existing.order_id = CancelResult.failed) := by
          rw [hc]; intro hcc; cases hcc
        have hcond : b.cancel existing.order_id = CancelResult.success ∧
            ¬ verifyOrderCancelled (b.verifyPolls existing.order_id)
                existing.order_id := ⟨hc, by rw [hv]; simp⟩
        simp only [manageLimitOrderForType, if_neg hd', if_pos hdrift',
          if_neg hfail, if_pos hcond]
  refine ⟨hmain, ?_⟩
  rw [hmain]
  intro e he
  simp only [List.mem_singleton] at he
  rw [he]
  rfl

/-- C1 witness: a symbol switch whose broker cancel fails keeps the
existing order and places nothing. -/
theorem C1_cancel_before_place_witness :
    manageLimitOrderForType failingBroker 0 (some w1entry) (some w1cand)
      (some 197) 1
      = ("kept", some w1entry, [BrokerEvent.cancelSent w8oid]) := by
  have h := C1_cancel_before_place failingBroker 0 w1entry w1cand 197 1
    (Or.inl (by decide)) (Or.inl rfl)
  exact h.1

/-- C4 counterexample: the claim fails as stated.  A final
`manage_limit_order_for_type` call with candidate None whose broker cancel
fails returns "kept" and leaves the entry order in
`pending_limit_orders` (the source deliberately keeps it "to prevent
orphaned open orders"), so an order_id still exists for the option type. -/
theorem C4_counterexample :
    manageLimitOrderForType failingBroker 0 (some w1entry) none none 1
      = ("kept", some w1entry, [BrokerEvent.cancelSent w8oid]) ∧
    (manageLimitOrderForType failingBroker 0 (some w1entry) none none 1).2.1
      ≠ none := by
  constructor
  · rfl
  · intro h
    simp only [manageLimitOrderForType] at h
    revert h
    decide

/-- C4 (amended): after a `manage_limit_order_for_type` call with
candidate None, no entry order exists for that option type — provided the
broker cancel of the existing order (when one exists) does not fail; a
failed cancel keeps the existing entry and returns "kept".  (The slot
after the final call of a sequence depends only on that call's pre-state,
so this settles the final-call-with-None property for every sequence.) -/
theorem C4_cancel_clears_slot (b : Broker) (now T : ℚ)
    (pending : Option OrderEntry)
    (h : ∀ e, pending = some e → b.cancel e.order_id ≠ CancelResult.failed) :
    (manageLimitOrderForType b now pending none none T).2.1 = none := by
  cases pending with
  | none => rfl
  | some e =>
    have hc : b.cancel e.order_id ≠ CancelResult.failed := h e rfl
    have hcc : b.cancel e.order_id = CancelResult.success ∨
        b.cancel e.order_id = CancelResult.terminal := by
      cases hcase : b.cancel e.order_id with
      | success => exact Or.inl rfl
      | terminal => exact Or.inr rfl
      | failed => exact absurd hcase hc
    simp only [manageLimitOrderForType, if_pos hcc]

/-- C4 witness: cancelling the concrete pending entry through a broker
whose cancel succeeds leaves the option-type slot empty. -/
theorem C4_cancel_clears_slot_witness :
    (manageLimitOrderForType succeedingBroker 0 (some w1entry) none none
      1).2.1 = none :=
  C4_cancel_clears_slot succeedingBroker 0 1 (some w1entry)
    (fun e he => by
      cases he
      intro hc
      cases hc)

/-! ## Claims C5, C2 (fill handling) -/

lemma handleOrderFill_of_mem (env : FillEnv)
    (processed : List (String × String × ℚ)) (f : Fill)
    (h : fillKey f ∈ processed) :
    handleOrderFill env processed f = (processed, []) := by
  simp [handleOrderFill, h]

lemma handleOrderFill_of_not_mem (env : FillEnv)
    (processed : List (String × String × ℚ)) (f : Fill)
    (h : fillKey f ∉ processed) :
    handleOrderFill env processed f
      = (fillKey f :: processed,
         [FillEvent.addPosition f.symbol f.fill_price
            (computeLiveSlPrice (env.detBars f.symbol) f.candidate_info
              (env.curBar f.symbol)) f.quantity f.candidate_info.actual_R,
          FillEvent.placeSL f.symbol
            (computeLiveSlPrice (env.detBars f.symbol) f.candidate_info
              (env.curBar f.symbol)) f.quantity]) := by
  simp [handleOrderFill, h]

lemma processedCount_cons (k : String × String × ℚ)
    (p : Fill × List FillEvent) (rest : List (Fill × List FillEvent)) :
    processedCount k (p :: rest)
      = (if fillKey p.1 = k ∧ p.2 ≠ [] then 1 else 0) + processedCount k rest := by
  simp only [processedCount, List.filter_cons]
  by_cases h : fillKey p.1 = k ∧ p.2 ≠ []
  · simp [h]
    omega
  · simp [h]

lemma runFills_count_of_mem (env : FillEnv) :
    ∀ (fills : List Fill) (processed : List (String × String × ℚ))
      (k : String × String × ℚ), k ∈ processed →
      processedCount k (runFills env processed fills) = 0 := by
  intro fills
  induction fills with
  | nil => intro processed k _; simp [runFills, processedCount]
  | cons f fs ih =>
    intro processed k hk
    by_cases hm : fillKey f ∈ processed
    · rw [runFills, handleOrderFill_of_mem env processed f hm,
        processedCount_cons]
      have : ¬ (fillKey f = k ∧
          ([] : List FillEvent) ≠ []) := by simp
      rw [if_neg this, ih processed k hk]
    · rw [runFills, handleOrderFill_of_not_mem env processed f hm,
        processedCount_cons]
      have hne : fillKey f ≠ k := fun he => hm (he ▸ hk)
      have : ¬ (fillKey f = k ∧
          ([FillEvent.addPosition f.symbol f.fill_price
              (computeLiveSlPrice (env.detBars f.symbol) f.candidate_info
                (env.curBar f.symbol)) f.quantity f.candidate_info.actual_R,
            FillEvent.placeSL f.symbol
              (computeLiveSlPrice (env.detBars f.symbol) f.candidate_info
                (env.curBar f.symbol)) f.quantity] : List FillEvent) ≠ []) :=
        fun hc => hne hc.1
      rw [if_neg this, ih (fillKey f :: processed) k
        (List.mem_cons_of_mem _ hk)]

lemma runFills_count_le_one (env : FillEnv) :
    ∀ (fills : List Fill) (processed : List (String × String × ℚ))
      (k : String × String × ℚ),
      processedCount k (runFills env processed fills) ≤ 1 := by
  intro fills
  induction fills with
  | nil => intro processed k; simp [runFills, processedCount]
  | cons f fs ih =>
    intro processed k
    by_cases hm : fillKey f ∈ processed
    · rw [runFills, handleOrderFill_of_mem env processed f hm,
        processedCount_cons]
      have : ¬ (fillKey f = k ∧ ([] : List FillEvent) ≠ []) := by simp
      rw [if_neg this]
      simpa using ih processed k
    · rw [runFills, handleOrderFill_of_not_mem env processed f hm,
        processedCount_cons]
      by_cases hk : fillKey f = k
      · have hcount := runFills_count_of_mem env fs (fillKey f :: processed) k
          (hk ▸ List.mem_cons_self _ _)
        rw [hcount]
        split_ifs <;> simp
      · have : ¬ (fillKey f = k ∧
            ([FillEvent.addPosition f.symbol f.fill_price
                (computeLiveSlPrice (env.detBars f.symbol) f.candidate_info
                  (env.curBar f.symbol)) f.quantity f.candidate_info.actual_R,
              FillEvent.placeSL f.symbol
                (computeLiveSlPrice (env.detBars f.symbol) f.candidate_info
                  (env.curBar f.symbol)) f.quantity] : List FillEvent) ≠ []) :=
          fun hc => hk hc.1
        rw [if_neg this]
        simpa using ih (fillKey f :: processed) k

lemma runFills_event_shape (env : FillEnv) :
    ∀ (fills : List Fill) (processed : List (String × String × ℚ)),
      ∀ p ∈ runFills env processed fills, p.2 = [] ∨
        ∃ sl, p.2 = [FillEvent.addPosition p.1.symbol p.1.fill_price sl
                       p.1.quantity p.1.candidate_info.actual_R,
                     FillEvent.placeSL p.1.symbol sl p.1.quantity] := by
  intro fills
  induction fills with
  | nil => intro processed p hp; simp [runFills] at hp
  | cons f fs ih =>
    intro processed p hp
    rw [runFills] at hp
    rcases List.mem_cons.mp hp with hp | hp
    · by_cases hm : fillKey f ∈ processed
      · rw [handleOrderFill_of_mem env processed f hm] at hp
        left
        rw [hp]
      · rw [handleOrderFill_of_not_mem env processed f hm] at hp
        right
        refine ⟨computeLiveSlPrice (env.detBars f.symbol) f.candidate_info
          (env.curBar f.symbol), ?_⟩
        rw [hp]
    · exact ih _ p hp

/-- C2: `handle_order_fill` dedups on the key (symbol, order_id,
fill_price): a call whose key was already processed returns immediately
with no position addition and no SL placement; over any call sequence,
each key is processed at most once; and a processed call adds exactly one
position and places exactly one SL order. -/
theorem C2_fill_exactly_once (env : FillEnv)
    (processed : List (String × String × ℚ)) (f : Fill) (fills : List Fill)
    (k : String × String × ℚ) (hm : fillKey f ∈ processed) :
    handleOrderFill env processed f = (processed, []) ∧
    processedCount k (runFills env processed fills) ≤ 1 ∧
    (∀ p ∈ runFills env processed fills, p.2 = [] ∨
      ∃ sl, p.2 = [FillEvent.addPosition p.1.symbol p.1.fill_price sl
                     p.1.quantity p.1.candidate_info.actual_R,
                   FillEvent.placeSL p.1.symbol sl p.1.quantity]) :=
  ⟨handleOrderFill_of_mem env processed f hm,
   runFills_count_le_one env fills processed k,
   runFills_event_shape env fills processed⟩

/-- C2 witness: a repeated concrete fill is processed only on its first
occurrence. -/
theorem C2_fill_exactly_once_witness :
    handleOrderFill wFillEnv [fillKey wFill] wFill = ([fillKey wFill], []) ∧
    processedCount (fillKey wFill)
      (runFills wFillEnv [fillKey wFill] [wFill, wFill]) ≤ 1 := by
  have h := C2_fill_exactly_once wFillEnv [fillKey wFill] wFill [wFill, wFill]
    (fillKey wFill) (List.mem_singleton.mpr rfl)
  exact ⟨h.1, h.2.1⟩

/-- C5: the live SL recomputation never lowers the stop.  The result
equals the stored candidate sl_price in every data-unavailable case (no
detector/bars, no swing time, or no bar at/after the swing time),
otherwise equals max(stored sl_price, highest high since swing including
the current incomplete bar, plus 1); it is always ≥ the stored sl_price;
and a processed fill uses exactly this value both for the added position
and for the SL order it places. -/
theorem C5_live_sl_never_lower (detBars : Option (List DetBar))
    (ci : CandInfo) (cb : Option CurBar) (env : FillEnv)
    (processed : List (String × String × ℚ)) (f : Fill)
    (hnp : fillKey f ∉ processed) :
    ci.sl_price ≤ computeLiveSlPrice detBars ci cb ∧
    ((detBars = none ∨ detBars = some [] ∨ ci.swing_time = none ∨
      (∀ bars, detBars = some bars → ∀ st, ci.swing_time = some st →
        ∀ bar ∈ bars, bar.timestamp < st)) →
      computeLiveSlPrice detBars ci cb = ci.sl_price) ∧
    (∀ bars st, detBars = some bars → ci.swing_time = some st →
      (∃ bar ∈ bars, st ≤ bar.timestamp) →
      computeLiveSlPrice detBars ci cb
        = max ci.sl_price (liveHighestHigh bars st cb + 1)) ∧
    (handleOrderFill env processed f).2
      = [FillEvent.addPosition f.symbol f.fill_price
           (computeLiveSlPrice (env.detBars f.symbol) f.candidate_info
             (env.curBar f.symbol)) f.quantity f.candidate_info.actual_R,
         FillEvent.placeSL f.symbol
           (computeLiveSlPrice (env.detBars f.symbol) f.candidate_info
             (env.curBar f.symbol)) f.quantity] := by
  obtain ⟨slp, aR, sto⟩ := ci
  refine ⟨?_, ?_, ?_, ?_⟩
  · cases detBars with
    | none => simp [computeLiveSlPrice]
    | some bars =>
      cases sto with
      | none => simp [computeLiveSlPrice]
      | some st =>
        simp only [computeLiveSlPrice]
        split_ifs with h1 h2 h3
        · exact le_rfl
        · exact le_rfl
        · exact le_of_lt h3
        · exact le_rfl
  · intro hcase
    rcases hcase with h | h | h | h
    · rw [h]
      rfl
    · rw [h]; simp [computeLiveSlPrice]
    · have hsto : sto = none := h
      subst hsto
      cases detBars with
      | none => rfl
      | some bars => simp [computeLiveSlPrice]
    · cases hdb : detBars with
      | none => rfl
      | some bars =>
        cases hst : sto with
        | none => simp [computeLiveSlPrice]
        | some st =>
          have hre : bars.filter (fun b => decide (st ≤ b.timestamp)) = [] := by
            rw [List.filter_eq_nil_iff]
            intro bar hbar
            have := h bars hdb st (by rw [hst]) bar hbar
            simpa using this
          simp [computeLiveSlPrice, hre]
  · intro bars st hdb hst
    have hsto : sto = some st := hst
    subst hsto
    subst hdb
    intro hex
    obtain ⟨bar, hbar, hts⟩ := hex
    have hbe : ¬ (bars.isEmpty = true) := by
      cases bars with
      | nil => simp at hbar
      | cons a l => simp
    have hre : ¬ ((bars.filter
        (fun b => decide (st ≤ b.timestamp))).isEmpty = true) := by
      have hmem : bar ∈ bars.filter (fun b => decide (st ≤ b.timestamp)) :=
        List.mem_filter.mpr ⟨hbar, by simpa using hts⟩
      intro hcon
      rw [List.isEmpty_iff] at hcon
      rw [hcon] at hmem
      simp at hmem
    simp only [computeLiveSlPrice]
    rw [if_neg hbe, if_neg hre]
    show (if liveHighestHigh bars st cb + 1 > slp
          then liveHighestHigh bars st cb + 1 else slp)
        = max slp (liveHighestHigh bars st cb + 1)
    split_ifs with hgt
    · exact (max_eq_right (le_of_lt hgt)).symm
    · exact (max_eq_left (not_lt.mp hgt)).symm
  · exact congrArg Prod.snd (handleOrderFill_of_not_mem env processed f hnp)

/-- C5 witness: on the concrete fixture (stored SL 104, swing time 5,
detector bar high 105, current bar high 103) the recomputed SL is
max(104, 105 + 1) and is at least the stored SL. -/
theorem C5_live_sl_never_lower_witness :
    wFill.candidate_info.sl_price
      ≤ computeLiveSlPrice (wFillEnv.detBars wFillSym)
          wFill.candidate_info (wFillEnv.curBar wFillSym) ∧
    computeLiveSlPrice (wFillEnv.detBars wFillSym) wFill.candidate_info
        (wFillEnv.curBar wFillSym)
      = max wFill.candidate_info.sl_price
          (liveHighestHigh wBars 5 (wFillEnv.curBar wFillSym) + 1) := by
  have h := C5_live_sl_never_lower (wFillEnv.detBars wFillSym)
    wFill.candidate_info (wFillEnv.curBar wFillSym) wFillEnv [] wFill
    (by simp)
  refine ⟨h.1, h.2.2.1 wBars 5 rfl rfl ?_⟩
  exact ⟨{ timestamp := 10, high := some 105 }, by decide, by norm_num⟩

/-! ## Claim C7 (strike filter) -/

lemma applyEntryFilters_isSome_iff (cfg : FilterCfg) (c : BreakCandidate) :
    (applyEntryFilters cfg c).isSome ↔
      ((cfg.minEntryPrice ≤ c.entry_price ∧
        c.entry_price ≤ cfg.maxEntryPrice) ∧
       ¬ ((c.entry_price - c.vwap_at_swing_low) / c.vwap_at_swing_low
            < cfg.minVwapPremium) ∧
       (cfg.minSlPercent ≤
          (c.highest_high_since_swing + 1 - c.entry_price) / c.entry_price ∧
        (c.highest_high_since_swing + 1 - c.entry_price) / c.entry_price
          ≤ cfg.maxSlPercent)) := by
  simp only [applyEntryFilters]
  split_ifs with h1 h2 h3 <;> simp_all

lemma applyEntryFilters_some_eq (cfg : FilterCfg) (c : BreakCandidate)
    (e : Enriched) (h : applyEntryFilters cfg c = some e) :
    e.sl_points = c.highest_high_since_swing + 1 - c.entry_price ∧
    e.entry_price = c.entry_price := by
  simp only [applyEntryFilters] at h
  split_ifs at h with h1 h2 h3
  cases h
  exact ⟨rfl, rfl⟩

lemma betterOrEq_of_strictlyBetter_false (cfg : FilterCfg) (x b : Enriched)
    (h : strictlyBetter cfg x b = false) :
    slDist cfg b < slDist cfg x ∨
      (slDist cfg b = slDist cfg x ∧ x.entry_price ≤ b.entry_price) := by
  simp only [strictlyBetter, Bool.or_eq_false_iff, Bool.and_eq_false_iff,
    decide_eq_false_iff_not, not_lt] at h
  obtain ⟨hle, hcase⟩ := h
  rcases lt_or_eq_of_le hle with hlt | heq
  · exact Or.inl hlt
  · rcases hcase with hne | hle2
    · exact absurd heq.symm hne
    · exact Or.inr ⟨heq, hle2⟩

lemma betterOrEq_of_strictlyBetter_true (cfg : FilterCfg) (x b : Enriched)
    (h : strictlyBetter cfg x b = true) :
    slDist cfg x < slDist cfg b ∨
      (slDist cfg x = slDist cfg b ∧ b.entry_price ≤ x.entry_price) := by
  simp only [strictlyBetter, Bool.or_eq_true, Bool.and_eq_true,
    decide_eq_true_eq] at h
  rcases h with h | ⟨heq, hlt⟩
  · exact Or.inl h
  · exact Or.inr ⟨heq, le_of_lt hlt⟩

lemma betterOrEq_trans (cfg : FilterCfg) (a b c : Enriched)
    (hab : slDist cfg a < slDist cfg b ∨
      (slDist cfg a = slDist cfg b ∧ b.entry_price ≤ a.entry_price))
    (hbc : slDist cfg b < slDist cfg c ∨
      (slDist cfg b = slDist cfg c ∧ c.entry_price ≤ b.entry_price)) :
    slDist cfg a < slDist cfg c ∨
      (slDist cfg a = slDist cfg c ∧ c.entry_price ≤ a.entry_price) := by
  rcases hab with h1 | ⟨h1, h1e⟩ <;> rcases hbc with h2 | ⟨h2, h2e⟩
  · exact Or.inl (lt_trans h1 h2)
  · exact Or.inl (h2 ▸ h1)
  · exact Or.inl (h1 ▸ h2)
  · exact Or.inr ⟨h1.trans h2, le_trans h2e h1e⟩

lemma selectBestStrike_spec (cfg : FilterCfg) :
    ∀ (rest : List Enriched) (c : Enriched),
      (selectBestStrike cfg c rest = c ∨ selectBestStrike cfg c rest ∈ rest) ∧
      (slDist cfg (selectBestStrike cfg c rest) < slDist cfg c ∨
        (slDist cfg (selectBestStrike cfg c rest) = slDist cfg c ∧
         c.entry_price ≤ (selectBestStrike cfg c rest).entry_price)) ∧
      (∀ x ∈ rest,
        slDist cfg (selectBestStrike cfg c rest) < slDist cfg x ∨
          (slDist cfg (selectBestStrike cfg c rest) = slDist cfg x ∧
           x.entry_price ≤ (selectBestStrike cfg c rest).entry_price)) := by
  intro rest
  induction rest with
  | nil =>
    intro c
    exact ⟨Or.inl rfl, Or.inr ⟨rfl, le_rfl⟩, by intro x hx; simp at hx⟩
  | cons x rest ih =>
    intro c
    have hstep : selectBestStrike cfg c (x :: rest)
        = selectBestStrike cfg (if strictlyBetter cfg x c then x else c) rest :=
      rfl
    cases hb : strictlyBetter cfg x c with
    | true =>
      have hx := ih x
      have hsel : selectBestStrike cfg c (x :: rest)
          = selectBestStrike cfg x rest := by rw [hstep, if_pos hb]
      have hxc := betterOrEq_of_strictlyBetter_true cfg x c hb
      refine ⟨?_, ?_, ?_⟩
      · rcases hx.1 with h | h
        · exact Or.inr (by rw [hsel, h]; exact List.mem_cons_self x rest)
        · exact Or.inr (by rw [hsel]; exact List.mem_cons_of_mem x h)
      · rw [hsel]
        exact betterOrEq_trans cfg _ x c hx.2.1 hxc
      · intro y hy
        rcases List.mem_cons.mp hy with hy | hy
        · rw [hsel, hy]
          exact hx.2.1
        · rw [hsel]
          exact hx.2.2 y hy
    | false =>
      have hc := ih c
      have hsel : selectBestStrike cfg c (x :: rest)
          = selectBestStrike cfg c rest := by
        rw [hstep, if_neg (by simp [hb])]
      have hcx := betterOrEq_of_strictlyBetter_false cfg x c hb
      refine ⟨?_, ?_, ?_⟩
      · rcases hc.1 with h | h
        · exact Or.inl (by rw [hsel, h])
        · exact Or.inr (by rw [hsel]; exact List.mem_cons_of_mem x h)
      · rw [hsel]
        exact hc.2.1
      · intro y hy
        rcases List.mem_cons.mp hy with hy | hy
        · rw [hsel, hy]
          exact betterOrEq_trans cfg _ c x hc.2.1 hcx
        · rw [hsel]
          exact hc.2.2 y hy

/-- C7: with the spec constants, a candidate qualifies iff
entry_price ∈ [100, 300], VWAP premium ≥ 4% and SL percent ∈ [2%, 10%];
`apply_filters` returns None exactly on disqualified/empty input, and
otherwise returns a qualified candidate whose |sl_points − 10| is minimal
among all qualified candidates, with ties broken by highest entry
price. -/
theorem C7_filters_and_selection (c : BreakCandidate)
    (cands : List BreakCandidate) (hv : 0 < c.vwap_at_swing_low) :
    ((applyEntryFilters specFilterCfg c).isSome ↔
      (100 ≤ c.entry_price ∧ c.entry_price ≤ 300 ∧
       (4 : ℚ)/100 ≤ (c.entry_price - c.vwap_at_swing_low)
                       / c.vwap_at_swing_low ∧
       (2 : ℚ)/100 ≤ (c.highest_high_since_swing + 1 - c.entry_price)
                       / c.entry_price ∧
       (c.highest_high_since_swing + 1 - c.entry_price) / c.entry_price
         ≤ (10 : ℚ)/100)) ∧
    ((∀ x ∈ cands, applyEntryFilters specFilterCfg x = none) →
      applyFilters specFilterCfg cands = none) ∧
    (∀ best, applyFilters specFilterCfg cands = some best →
      (∃ x ∈ cands, applyEntryFilters specFilterCfg x = some best) ∧
      (∀ y e, y ∈ cands → applyEntryFilters specFilterCfg y = some e →
        |best.sl_points - 10| ≤ |e.sl_points - 10| ∧
        (|e.sl_points - 10| = |best.sl_points - 10| →
          e.entry_price ≤ best.entry_price))) ∧
    (cands ≠ [] →
      (∃ x ∈ cands, (applyEntryFilters specFilterCfg x).isSome) →
      (applyFilters specFilterCfg cands).isSome) := by
  refine ⟨?_, ?_, ?_, ?_⟩
  · rw [applyEntryFilters_isSome_iff specFilterCfg c]
    simp only [specFilterCfg, not_lt]
    tauto
  · intro hall
    have hfm : cands.filterMap (applyEntryFilters specFilterCfg) = [] :=
      List.filterMap_eq_nil_iff.mpr hall
    by_cases he : cands.isEmpty
    · simp only [applyFilters, if_pos he]
    · simp only [applyFilters, if_neg he, hfm]
  · intro best hbest
    by_cases he : cands.isEmpty
    · simp only [applyFilters, if_pos he] at hbest
      cases hbest
    · simp only [applyFilters, if_neg he] at hbest
      cases hfm : cands.filterMap (applyEntryFilters specFilterCfg) with
      | nil =>
        rw [hfm] at hbest
        cases hbest
      | cons q qs =>
        rw [hfm] at hbest
        have hbesteq : selectBestStrike specFilterCfg q qs = best :=
          Option.some.inj hbest
        have hspec := selectBestStrike_spec specFilterCfg qs q
        have hmem : best ∈ cands.filterMap (applyEntryFilters specFilterCfg) := by
          rw [hfm]
          rcases hspec.1 with h | h
          · rw [← hbesteq, h]
            exact List.mem_cons_self q qs
          · rw [← hbesteq]
            exact List.mem_cons_of_mem q h
        constructor
        · exact List.mem_filterMap.mp hmem
        · intro y e hy hye
          have hemem : e ∈ q :: qs := by
            rw [← hfm]
            exact List.mem_filterMap.mpr ⟨y, hy, hye⟩
          have hbetter : slDist specFilterCfg best < slDist specFilterCfg e ∨
              (slDist specFilterCfg best = slDist specFilterCfg e ∧
               e.entry_price ≤ best.entry_price) := by
            rcases List.mem_cons.mp hemem with h | h
            · rw [← hbesteq, h]
              exact hspec.2.1
            · rw [← hbesteq]
              exact hspec.2.2 e h
          have hdist : slDist specFilterCfg best = |best.sl_points - 10| := rfl
          have hdist2 : slDist specFilterCfg e = |e.sl_points - 10| := rfl
          rw [hdist, hdist2] at hbetter
          constructor
          · rcases hbetter with h | ⟨h, _⟩
            · exact le_of_lt h
            · exact le_of_eq h
          · intro heq
            rcases hbetter with h | ⟨_, h⟩
            · rw [heq] at h
              exact absurd h (lt_irrefl _)
            · exact h
  · intro hne hex
    obtain ⟨x, hx, hxs⟩ := hex
    have he : ¬ cands.isEmpty := by
      cases cands with
      | nil => exact absurd rfl hne
      | cons a l => simp
    obtain ⟨e, hxe⟩ := Option.isSome_iff_exists.mp hxs
    have hmem : e ∈ cands.filterMap (applyEntryFilters specFilterCfg) :=
      List.mem_filterMap.mpr ⟨x, hx, hxe⟩
    simp only [applyFilters, if_neg he]
    cases hfm : cands.filterMap (applyEntryFilters specFilterCfg) with
    | nil =>
      rw [hfm] at hmem
      simp at hmem
    | cons q qs => rfl

/-- C7 witness: `apply_filters` on the singleton list containing the
concrete qualified candidate (entry 200, VWAP 190, highest high 209)
returns a selection. -/
theorem C7_filters_and_selection_witness :
    (applyFilters specFilterCfg [w7c1]).isSome = true := by
  have h := C7_filters_and_selection w7c1 [w7c1] (by norm_num [w7c1])
  refine h.2.2.2 (by simp) ⟨w7c1, by simp, ?_⟩
  exact h.1.mpr (by norm_num [w7c1])

/-! ## Claim C9 (failover monitor) -/

lemma w9_noTicksSinceSubscribe :
    noTicksSinceSubscribeCond w9cfg w9st 100 = false := by
  simp [noTicksSinceSubscribeCond, w9st]

lemma w9_noTicks : noTicksCond w9cfg w9st 100 = false := by
  have h : ¬ ((100 : ℚ) - maxTickValue [(w9a, 95)] > w9cfg.noTickThreshold) := by
    simp [maxTickValue, w9cfg]
    norm_num
  simp [noTicksCond, w9st, decide_eq_false h]

lemma w9_lowCoverage : lowCoverageCond w9cfg w9st 100 = true := by
  have hab : ((w9a == w9b) : Bool) = false := by decide
  have hac : ((w9a == w9c) : Bool) = false := by decide
  have hbc : ((w9b == w9c) : Bool) = false := by decide
  have ha : lookupTime w9st.last_tick_time w9a = some 95 := by
    simp [lookupTime, w9st, List.find?]
  have hbv : lookupTime w9st.last_tick_time w9b = some 50 := by
    simp [lookupTime, w9st, List.find?, hab]
  have hcv : lookupTime w9st.last_tick_time w9c = some 50 := by
    simp [lookupTime, w9st, List.find?, hac, hbc]
  have hfa : (decide ((100 : ℚ) - 95 ≤ w9cfg.maxTickAge)) = true := by
    rw [decide_eq_true_eq]
    show (100 : ℚ) - 95 ≤ 10
    norm_num
  have hfb : (decide ((100 : ℚ) - 50 ≤ w9cfg.maxTickAge)) = false := by
    rw [decide_eq_false_iff_not]
    show ¬ ((100 : ℚ) - 50 ≤ 10)
    norm_num
  have hsubs : w9st.subscribed_symbols = [w9a, w9b, w9c] := rfl
  simp only [lowCoverageCond, hsubs, List.filter_cons, List.filter_nil,
    ha, hbv, hcv, hfa, hfb]
  simp only [List.length_cons, List.length_nil]
  rw [if_neg (by norm_num)]
  rw [decide_eq_true_eq]
  show ((1 : ℕ) : ℚ) / ((3 : ℕ) : ℚ) < w9cfg.coverageThreshold
  show ((1 : ℕ) : ℚ) / ((3 : ℕ) : ℚ) < 1/2
  norm_num

/-- C9 counterexample: the claim fails as stated.  In the concrete
snapshot the primary is connected, ticks since subscription exist, the
newest primary tick is only 5s old (conditions (a)-(c) all false), and
fresh coverage is 1/3 on this very first low-coverage reading — yet the
monitor triggers failover immediately: the code has no
three-consecutive-checks counter on the failover path. -/
theorem C9_counterexample :
    monitorCheckPrimary w9cfg w9st 100
      = MonitorAction.failover TrigCat.lowCoverage ∧
    w9st.is_connected = true ∧
    noTicksSinceSubscribeCond w9cfg w9st 100 = false ∧
    noTicksCond w9cfg w9st 100 = false := by
  refine ⟨?_, rfl, w9_noTicksSinceSubscribe, w9_noTicks⟩
  simp [monitorCheckPrimary, dispatchTrigger, w9_noTicksSinceSubscribe,
    w9_noTicks, w9_lowCoverage,
    show w9st.is_reconnecting = false from rfl,
    show w9st.is_connected = true from rfl,
    show w9st.subscribed_symbols.isEmpty = false from rfl,
    show w9st.first_data_received_at.isSome = true from rfl,
    show w9st.marketOpen = true from rfl,
    show w9st.angelone_is_connected = true from rfl,
    show w9st.auto_reconnect_enabled = true from rfl,
    show w9st.is_failover_active = false from rfl]

/-- C9 (amended): while the primary feed is active, the backup connected,
auto-reconnect enabled and no reconnect in flight, one monitor iteration
fails over to the backup exactly when: the primary WebSocket is
disconnected, or no primary tick has arrived since subscription began for
longer than NO_TICK_THRESHOLD, or (data having started, market open) no
primary tick across any symbol for more than NO_TICK_THRESHOLD, or
(likewise) fresh-symbol coverage is below the threshold on this single
check — not after three consecutive low-coverage checks; the
three-consecutive rule lives in `check_data_freshness`, the separate
watchdog. -/
theorem C9_failover_trigger_conditions (cfg : MonCfg) (st : MonState)
    (now : ℚ) (hfa : st.is_failover_active = false)
    (hb : st.angelone_is_connected = true)
    (har : st.auto_reconnect_enabled = true)
    (hnr : st.is_reconnecting = false) :
    (∃ cat, monitorCheckPrimary cfg st now = MonitorAction.failover cat) ↔
      (st.is_connected = false ∨
       noTicksSinceSubscribeCond cfg st now = true ∨
       (st.subscribed_symbols.isEmpty = false ∧
        st.first_data_received_at.isSome = true ∧ st.marketOpen = true ∧
        noTicksCond cfg st now = true) ∨
       (st.subscribed_symbols.isEmpty = false ∧
        st.first_data_received_at.isSome = true ∧ st.marketOpen = true ∧
        lowCoverageCond cfg st now = true)) := by
  have hdisp : ∀ catt, dispatchTrigger st catt = MonitorAction.failover catt := by
    intro catt
    simp [dispatchTrigger, har, hnr, hb, hfa]
  cases h1 : st.is_connected <;>
    cases h2 : noTicksSinceSubscribeCond cfg st now <;>
      cases hs : st.subscribed_symbols.isEmpty <;>
        cases hf : st.first_data_received_at.isSome <;>
          cases hm : st.marketOpen <;>
            cases h4 : noTicksCond cfg st now <;>
              cases h5 : lowCoverageCond cfg st now <;>
                simp [monitorCheckPrimary, hnr, h1, h2, hs, hf, hm, h4, h5,
                  hdisp]

/-- C9 witness: the amended trigger characterisation applied to the
concrete snapshot derives that a failover happens there. -/
theorem C9_failover_trigger_conditions_witness :
    ∃ cat, monitorCheckPrimary w9cfg w9st 100
      = MonitorAction.failover cat := by
  refine (C9_failover_trigger_conditions w9cfg w9st 100 rfl rfl rfl rfl).mpr ?_
  exact Or.inr (Or.inr (Or.inr ⟨rfl, rfl, rfl, w9_lowCoverage⟩))

/-! ## Claim C3 (churn circuit breaker, modelled from the spec) -/

lemma recordPlace_block (cfg : ChurnCfg) (st : ChurnState) (sym : String)
    (t : ℚ)
    (h1 : hasRecentCancel st.cancel_events sym cfg.cycleGap t = true)
    (h2 : cfg.perSymbolLimit
      ≤ cyclesFor ((t, sym) :: st.churn_cycle_log) sym cfg.window t) :
    recordPlace cfg st sym t
      = (ChurnResult.symbolBlocked,
         { st with churn_cycle_log := (t, sym) :: st.churn_cycle_log,
                   blocked_symbols := sym :: st.blocked_symbols }) := by
  simp only [recordPlace, h1, if_true, if_pos h2]

lemma recordPlace_ok_cycle (cfg : ChurnCfg) (st : ChurnState) (sym : String)
    (t : ℚ)
    (h1 : hasRecentCancel st.cancel_events sym cfg.cycleGap t = true)
    (h2 : ¬ (cfg.perSymbolLimit
      ≤ cyclesFor ((t, sym) :: st.churn_cycle_log) sym cfg.window t))
    (h3 : ¬ (cfg.globalLimit
      ≤ cyclesAll ((t, sym) :: st.churn_cycle_log) cfg.window t)) :
    recordPlace cfg st sym t
      = (ChurnResult.ok,
         { st with churn_cycle_log := (t, sym) :: st.churn_cycle_log }) := by
  simp only [recordPlace, h1, if_true, if_neg h2, if_neg h3]

lemma recordPlace_pause (cfg : ChurnCfg) (st : ChurnState) (sym : String)
    (t : ℚ)
    (h1 : hasRecentCancel st.cancel_events sym cfg.cycleGap t = true)
    (h2 : ¬ (cfg.perSymbolLimit
      ≤ cyclesFor ((t, sym) :: st.churn_cycle_log) sym cfg.window t))
    (h3 : cfg.globalLimit
      ≤ cyclesAll ((t, sym) :: st.churn_cycle_log) cfg.window t) :
    recordPlace cfg st sym t
      = (ChurnResult.strategyPause,
         { st with churn_cycle_log := (t, sym) :: st.churn_cycle_log }) := by
  simp only [recordPlace, h1, if_true, if_neg h2, if_pos h3]

/-- C3 (modelled from the spec): two cancel-then-place-within-30s cycles of
one symbol inside a 300s window return the symbol-blocked signal on the
second place, put the symbol in the blocked set (so the next place request
for it is skipped), and five such cycles across five symbols make the
fifth place return the strategy-pause signal. -/
theorem C3_churn_circuit_breaker (s : String) (t1 t2 t3 t4 : ℚ)
    (h12 : t1 ≤ t2) (g12 : t2 - t1 ≤ 30)
    (h34 : t3 ≤ t4) (g34 : t4 - t3 ≤ 30) (hw : t4 - t2 < 300)
    (s1 s2 s3 s4 s5 : String) (u : ℚ)
    (hd12 : s1 ≠ s2) (hd13 : s1 ≠ s3) (hd14 : s1 ≠ s4) (hd15 : s1 ≠ s5)
    (hd23 : s2 ≠ s3) (hd24 : s2 ≠ s4) (hd25 : s2 ≠ s5)
    (hd34 : s3 ≠ s4) (hd35 : s3 ≠ s5) (hd45 : s4 ≠ s5) :
    ((runChurnOps specChurnCfg ChurnState.empty
        [ChurnOp.cancelOp s t1, ChurnOp.placeOp s t2,
         ChurnOp.cancelOp s t3, ChurnOp.placeOp s t4]).2
       = [ChurnResult.ok, ChurnResult.symbolBlocked] ∧
     isBlocked (runChurnOps specChurnCfg ChurnState.empty
        [ChurnOp.cancelOp s t1, ChurnOp.placeOp s t2,
         ChurnOp.cancelOp s t3, ChurnOp.placeOp s t4]).1 s = true ∧
     churnAllowsPlace (runChurnOps specChurnCfg ChurnState.empty
        [ChurnOp.cancelOp s t1, ChurnOp.placeOp s t2,
         ChurnOp.cancelOp s t3, ChurnOp.placeOp s t4]).1 s = false) ∧
    (runChurnOps specChurnCfg ChurnState.empty
        [ChurnOp.cancelOp s1 u, ChurnOp.placeOp s1 (u+1),
         ChurnOp.cancelOp s2 (u+2), ChurnOp.placeOp s2 (u+3),
         ChurnOp.cancelOp s3 (u+4), ChurnOp.placeOp s3 (u+5),
         ChurnOp.cancelOp s4 (u+6), ChurnOp.placeOp s4 (u+7),
         ChurnOp.cancelOp s5 (u+8), ChurnOp.placeOp s5 (u+9)]).2
       = [ChurnResult.ok, ChurnResult.ok, ChurnResult.ok, ChurnResult.ok,
          ChurnResult.strategyPause] := by
  have hgap : specChurnCfg.cycleGap = 30 := rfl
  have hwin : specChurnCfg.window = 300 := rfl
  have hper : specChurnCfg.perSymbolLimit = 2 := rfl
  have hglo : specChurnCfg.globalLimit = 5 := rfl
  constructor
  · -- per-symbol half
    have hrc2 : hasRecentCancel [(s, t1)] s specChurnCfg.cycleGap t2 = true := by
      simp [hasRecentCancel, hgap]
      exact ⟨by linarith, by linarith⟩
    have hcf2 : cyclesFor [(t2, s)] s specChurnCfg.window t2 = 1 := by
      have ha : t2 - specChurnCfg.window < t2 := by rw [hwin]; linarith
      simp [cyclesFor, List.filter_cons, ha]
    have hca2 : cyclesAll [(t2, s)] specChurnCfg.window t2 = 1 := by
      have ha : t2 - specChurnCfg.window < t2 := by rw [hwin]; linarith
      simp [cyclesAll, List.filter_cons, ha]
    have e2 : recordPlace specChurnCfg ⟨[(s, t1)], [], []⟩ s t2
        = (ChurnResult.ok, ⟨[(s, t1)], [(t2, s)], []⟩) := by
      rw [recordPlace_ok_cycle specChurnCfg ⟨[(s, t1)], [], []⟩ s t2 hrc2
        (by rw [hper]; show ¬ (2 ≤ cyclesFor [(t2, s)] s _ t2); rw [hcf2]; omega)
        (by rw [hglo]; show ¬ (5 ≤ cyclesAll [(t2, s)] _ t2); rw [hca2]; omega)]
    have hrc4 : hasRecentCancel [(s, t3), (s, t1)] s specChurnCfg.cycleGap t4
        = true := by
      simp [hasRecentCancel, hgap]
      exact Or.inl ⟨by linarith, by linarith⟩
    have hcf4 : cyclesFor [(t4, s), (t2, s)] s specChurnCfg.window t4 = 2 := by
      have ha : t4 - specChurnCfg.window < t4 := by rw [hwin]; linarith
      have hb : t4 - specChurnCfg.window < t2 := by rw [hwin]; linarith
      simp [cyclesFor, List.filter_cons, ha, hb]
    have e4 : recordPlace specChurnCfg ⟨[(s, t3), (s, t1)], [(t2, s)], []⟩ s t4
        = (ChurnResult.symbolBlocked,
           ⟨[(s, t3), (s, t1)], [(t4, s), (t2, s)], [s]⟩) := by
      rw [recordPlace_block specChurnCfg ⟨[(s, t3), (s, t1)], [(t2, s)], []⟩
        s t4 hrc4 (by rw [hper, hcf4])]
    have hrun : runChurnOps specChurnCfg ChurnState.empty
        [ChurnOp.cancelOp s t1, ChurnOp.placeOp s t2,
         ChurnOp.cancelOp s t3, ChurnOp.placeOp s t4]
        = (⟨[(s, t3), (s, t1)], [(t4, s), (t2, s)], [s]⟩,
           [ChurnResult.ok, ChurnResult.symbolBlocked]) := by
      simp only [runChurnOps, recordCancel, ChurnState.empty, e2, e4]
    rw [hrun]
    exact ⟨rfl, by simp [isBlocked], by simp [churnAllowsPlace, isBlocked]⟩
  · -- global half
    have b21 : ((s1 == s2) : Bool) = false := by
      simp [hd12]
    have b31 : ((s1 == s3) : Bool) = false := by simp [hd13]
    have b41 : ((s1 == s4) : Bool) = false := by simp [hd14]
    have b51 : ((s1 == s5) : Bool) = false := by simp [hd15]
    have b32 : ((s2 == s3) : Bool) = false := by simp [hd23]
    have b42 : ((s2 == s4) : Bool) = false := by simp [hd24]
    have b52 : ((s2 == s5) : Bool) = false := by simp [hd25]
    have b43 : ((s3 == s4) : Bool) = false := by simp [hd34]
    have b53 : ((s3 == s5) : Bool) = false := by simp [hd35]
    have b54 : ((s4 == s5) : Bool) = false := by simp [hd45]
    have win : ∀ a b : ℚ, 0 ≤ a - b → a - b ≤ 9 → a - specChurnCfg.window < b := by
      intro a b hab1 hab2
      rw [hwin]
      linarith
    have hrcg : ∀ (sx : String) (ta tb : ℚ) (evs : List (String × ℚ)),
        ta ≤ tb → tb - ta ≤ 30 →
        hasRecentCancel ((sx, ta) :: evs) sx specChurnCfg.cycleGap tb
          = true := by
      intro sx ta tb evs hab hg
      simp [hasRecentCancel, hgap]
      exact Or.inl ⟨by linarith, by linarith⟩
    have e1 : recordPlace specChurnCfg ⟨[(s1, u)], [], []⟩ s1 (u+1)
        = (ChurnResult.ok, ⟨[(s1, u)], [(u+1, s1)], []⟩) := by
      rw [recordPlace_ok_cycle _ _ _ _
        (hrcg s1 u (u+1) [] (by linarith) (by linarith))
        (by
          have hcf : cyclesFor [(u+1, s1)] s1 specChurnCfg.window (u+1) = 1 := by
            simp [cyclesFor, List.filter_cons, win (u+1) (u+1) (by linarith)
              (by linarith)]
          rw [hper, hcf]
          omega)
        (by
          have hca : cyclesAll [(u+1, s1)] specChurnCfg.window (u+1) = 1 := by
            simp [cyclesAll, List.filter_cons, win (u+1) (u+1) (by linarith)
              (by linarith)]
          rw [hglo, hca]
          omega)]
    have e2g : recordPlace specChurnCfg
        ⟨[(s2, u+2), (s1, u)], [(u+1, s1)], []⟩ s2 (u+3)
        = (ChurnResult.ok,
           ⟨[(s2, u+2), (s1, u)], [(u+3, s2), (u+1, s1)], []⟩) := by
      rw [recordPlace_ok_cycle _ _ _ _
        (hrcg s2 (u+2) (u+3) _ (by linarith) (by linarith))
        (by
          have hcf : cyclesFor [(u+3, s2), (u+1, s1)] s2 specChurnCfg.window
              (u+3) = 1 := by
            simp [cyclesFor, List.filter_cons, b21,
              win (u+3) (u+3) (by linarith) (by linarith),
              win (u+3) (u+1) (by linarith) (by linarith)]
          rw [hper, hcf]
          omega)
        (by
          have hca : cyclesAll [(u+3, s2), (u+1, s1)] specChurnCfg.window
              (u+3) = 2 := by
            simp [cyclesAll, List.filter_cons,
              win (u+3) (u+3) (by linarith) (by linarith),
              win (u+3) (u+1) (by linarith) (by linarith)]
          rw [hglo, hca]
          omega)]
    have e3g : recordPlace specChurnCfg
        ⟨[(s3, u+4), (s2, u+2), (s1, u)], [(u+3, s2), (u+1, s1)], []⟩ s3 (u+5)
        = (ChurnResult.ok,
           ⟨[(s3, u+4), (s2, u+2), (s1, u)],
            [(u+5, s3), (u+3, s2), (u+1, s1)], []⟩) := by
      rw [recordPlace_ok_cycle _ _ _ _
        (hrcg s3 (u+4) (u+5) _ (by linarith) (by linarith))
        (by
          have hcf : cyclesFor [(u+5, s3), (u+3, s2), (u+1, s1)] s3
              specChurnCfg.window (u+5) = 1 := by
            simp [cyclesFor, List.filter_cons, b32, b31,
              win (u+5) (u+5) (by linarith) (by linarith),
              win (u+5) (u+3) (by linarith) (by linarith),
              win (u+5) (u+1) (by linarith) (by linarith)]
          rw [hper, hcf]
          omega)
        (by
          have hca : cyclesAll [(u+5, s3), (u+3, s2), (u+1, s1)]
              specChurnCfg.window (u+5) = 3 := by
            simp [cyclesAll, List.filter_cons,
              win (u+5) (u+5) (by linarith) (by linarith),
              win (u+5) (u+3) (by linarith) (by linarith),
              win (u+5) (u+1) (by linarith) (by linarith)]
          rw [hglo, hca]
          omega)]
    have e4g : recordPlace specChurnCfg
        ⟨[(s4, u+6), (s3, u+4), (s2, u+2), (s1, u)],
         [(u+5, s3), (u+3, s2), (u+1, s1)], []⟩ s4 (u+7)
        = (ChurnResult.ok,
           ⟨[(s4, u+6), (s3, u+4), (s2, u+2), (s1, u)],
            [(u+7, s4), (u+5, s3), (u+3, s2), (u+1, s1)], []⟩) := by
      rw [recordPlace_ok_cycle _ _ _ _
        (hrcg s4 (u+6) (u+7) _ (by linarith) (by linarith))
        (by
          have hcf : cyclesFor [(u+7, s4), (u+5, s3), (u+3, s2), (u+1, s1)]
              s4 specChurnCfg.window (u+7) = 1 := by
            simp [cyclesFor, List.filter_cons, b43, b42, b41,
              win (u+7) (u+7) (by linarith) (by linarith),
              win (u+7) (u+5) (by linarith) (by linarith),
              win (u+7) (u+3) (by linarith) (by linarith),
              win (u+7) (u+1) (by linarith) (by linarith)]
          rw [hper, hcf]
          omega)
        (by
          have hca : cyclesAll [(u+7, s4), (u+5, s3), (u+3, s2), (u+1, s1)]
              specChurnCfg.window (u+7) = 4 := by
            simp [cyclesAll, List.filter_cons,
              win (u+7) (u+7) (by linarith) (by linarith),
              win (u+7) (u+5) (by linarith) (by linarith),
              win (u+7) (u+3) (by linarith) (by linarith),
              win (u+7) (u+1) (by linarith) (by linarith)]
          rw [hglo, hca]
          omega)]
    have e5g : recordPlace specChurnCfg
        ⟨[(s5, u+8), (s4, u+6), (s3, u+4), (s2, u+2), (s1, u)],
         [(u+7, s4), (u+5, s3), (u+3, s2), (u+1, s1)], []⟩ s5 (u+9)
        = (ChurnResult.strategyPause,
           ⟨[(s5, u+8), (s4, u+6), (s3, u+4), (s2, u+2), (s1, u)],
            [(u+9, s5), (u+7, s4), (u+5, s3), (u+3, s2), (u+1, s1)], []⟩) := by
      rw [recordPlace_pause _ _ _ _
        (hrcg s5 (u+8) (u+9) _ (by linarith) (by linarith))
        (by
          have hcf : cyclesFor
              [(u+9, s5), (u+7, s4), (u+5, s3), (u+3, s2), (u+1, s1)] s5
              specChurnCfg.window (u+9) = 1 := by
            simp [cyclesFor, List.filter_cons, b54, b53, b52, b51,
              win (u+9) (u+9) (by linarith) (by linarith),
              win (u+9) (u+7) (by linarith) (by linarith),
              win (u+9) (u+5) (by linarith) (by linarith),
              win (u+9) (u+3) (by linarith) (by linarith),
              win (u+9) (u+1) (by linarith) (by linarith)]
          rw [hper, hcf]
          omega)
        (by
          have hca : cyclesAll
              [(u+9, s5), (u+7, s4), (u+5, s3), (u+3, s2), (u+1, s1)]
              specChurnCfg.window (u+9) = 5 := by
            simp [cyclesAll, List.filter_cons,
              win (u+9) (u+9) (by linarith) (by linarith),
              win (u+9) (u+7) (by linarith) (by linarith),
              win (u+9) (u+5) (by linarith) (by linarith),
              win (u+9) (u+3) (by linarith) (by linarith),
              win (u+9) (u+1) (by linarith) (by linarith)]
          rw [hglo, hca])]
    simp only [runChurnOps, recordCancel, ChurnState.empty, e1, e2g, e3g,
      e4g, e5g]

/-- C3 witness: the circuit breaker evaluated at concrete symbols and
times — the second same-symbol cycle returns symbol-blocked and the fifth
cross-symbol cycle returns strategy-pause. -/
theorem C3_churn_circuit_breaker_witness :
    (runChurnOps specChurnCfg ChurnState.empty
        [ChurnOp.cancelOp w9a 0, ChurnOp.placeOp w9a 1,
         ChurnOp.cancelOp w9a 2, ChurnOp.placeOp w9a 3]).2
      = [ChurnResult.ok, ChurnResult.symbolBlocked] ∧
    (runChurnOps specChurnCfg ChurnState.empty
        [ChurnOp.cancelOp w9a 0, ChurnOp.placeOp w9a 1,
         ChurnOp.cancelOp w9b 2, ChurnOp.placeOp w9b 3,
         ChurnOp.cancelOp w9c 4, ChurnOp.placeOp w9c 5,
         ChurnOp.cancelOp w3d 6, ChurnOp.placeOp w3d 7,
         ChurnOp.cancelOp w3e 8, ChurnOp.placeOp w3e 9]).2
      = [ChurnResult.ok, ChurnResult.ok, ChurnResult.ok, ChurnResult.ok,
         ChurnResult.strategyPause] := by
  have h := C3_churn_circuit_breaker w9a 0 1 2 3 (by norm_num) (by norm_num)
    (by norm_num) (by norm_num) (by norm_num)
    w9a w9b w9c w3d w3e 0
    (by decide) (by decide) (by decide) (by decide) (by decide) (by decide)
    (by decide) (by decide) (by decide) (by decide)
  refine ⟨h.1.1, ?_⟩
  have h2 := h.2
  norm_num at h2
  exact h2

end NiftyAgent
